import Mathlib

/-
  Verification development for the NomXML library (nomxml.h / nomxml.cpp).

  The parser core is shallowly embedded below.  Characters of the input
  document are Lean Char values (the C++ code reads 8-bit bytes and widens
  them to wchar_t one-for-one, so a list of Char is a faithful model of the
  memory-backed input).  Strings (std::wstring) are modelled as List Char.
  size_t values are Nat; the single place where size_t subtraction can wrap
  (tagoffset in ParseBeginTagNode) is modelled with an explicit mod 2^64.

  Every loop of the C++ code is modelled as a fuel-indexed structurally
  recursive function returning Option; a none result means the C++ loop has
  not finished within the given fuel.  Loops test their exit condition
  before consuming fuel, so a loop that performs no iteration succeeds with
  any fuel.  (One loop of the source, the attribute loop of
  ParseBeginTagNode, genuinely fails to terminate on some inputs, so some
  fuel bound is unavoidable.)

  The vector m_Stack is modelled as a list whose HEAD is the back (top) of
  the vector: push_back becomes cons, m_Stack[m_Stack.size()-1] becomes the
  head, and erasing the last element becomes the tail.

  As instrumentation for the stack-safety claim, the states carry a flag
  ubEmptyStack that is set exactly where the C++ code would index or erase
  an empty vector (an out-of-bounds access); the code's emptiness guards
  should make those branches unreachable.
-/

/-- One attribute of an XML tag (struct XmlAttribute, nomxml.h). -/
structure XmlAttribute where
  m_Name : List Char
  m_Value : List Char
deriving Repr, DecidableEq

/-- Payload of an opening-tag node (class XmlBeginNode, nomxml.h). -/
structure XmlBeginNode where
  m_Name : List Char
  m_Offset : Nat
  m_Attribs : List XmlAttribute
deriving Repr, DecidableEq

/-- Payload of a value node (class XmlValueNode, nomxml.h). -/
structure XmlValueNode where
  m_Name : List Char
  m_Value : List Char
deriving Repr, DecidableEq

/-- Payload of a closing-tag node (class XmlEndNode, nomxml.h). -/
structure XmlEndNode where
  m_Name : List Char
deriving Repr, DecidableEq

/-- An element on the parser's nesting stack (class XmlElementBase, nomxml.h). -/
structure XmlElementBase where
  m_Begin : XmlBeginNode
  m_Value : XmlValueNode
  m_End : XmlEndNode
deriving Repr, DecidableEq

/-- Default-constructed XmlElementBase (all strings empty, offset 0). -/
def emptyElement : XmlElementBase :=
  { m_Begin := { m_Name := [], m_Offset := 0, m_Attribs := [] },
    m_Value := { m_Name := [], m_Value := [] },
    m_End := { m_Name := [] } }

/-- The node handed back through ptrref by NextNode: a clone of a begin,
value, or end node (the XmlNodeBase hierarchy collapsed to a sum). -/
inductive XmlNode where
  | Begin : List Char → Nat → List XmlAttribute → XmlNode
  | Value : List Char → List Char → XmlNode
  | End : List Char → XmlNode
deriving Repr, DecidableEq

/-- State of an XmlParser bound to a memory-backed input
(XmlMemoryInputInterface over the fixed buffer input). -/
structure ParserState where
  input : List Char
  m_ReaderPos : Nat
  m_DataSize : Nat
  m_DataPos : Nat
  m_CurChar : Char
  m_CurToken : List Char
  m_Stack : List XmlElementBase
  m_PriorWasEmptyTag : Bool
  m_ErrorInfo : List Char
  ubEmptyStack : Bool
deriving Repr, DecidableEq

/-- XmlMemoryInputInterface::ReadChar: succeed with the byte at the read
position and advance, fail when the position is at or past the end. -/
def memReadChar (inp : List Char) (pos : Nat) : Option (Char × Nat) :=
  match inp.get? pos with
  | some c => some (c, pos + 1)
  | none => none

/-- XmlMemoryInputInterface::EndOfFile: the source's notion of end of file,
m_DataPos > m_DataSize (data assumed non-null). -/
def memEndOfFile (inp : List Char) (pos : Nat) : Bool :=
  decide (pos > inp.length)

/-- XmlMemoryInputInterface::Seek: set the position, clamping to the size
and reporting failure when the requested offset exceeds it. -/
def memSeek (inp : List Char) (offset : Nat) : Bool × Nat :=
  if offset > inp.length then (false, inp.length) else (true, offset)

/-- iswspace restricted to the characters the 8-bit readers can produce
(C locale whitespace). -/
def iswspaceW (c : Char) : Bool :=
  c = ' ' || c = '\t' || c = '\n' || c = '\r' || c = '\x0b' || c = '\x0c'

/-- The delimiter string xmlDelimsWithEquals. -/
def xmlDelimsWithEquals : List Char := ['=', '>', '<', '?', ' ', '\r', '\n', '\t']

/-- The delimiter string xmlDelimsWithSlash. -/
def xmlDelimsWithSlash : List Char := ['/', '>', '<', '?', ' ', '\r', '\n', '\t']

/-- IsWhiteSpace of nomxml.cpp: all characters of the string whitespace. -/
def IsWhiteSpace (text : List Char) : Bool :=
  text.all iswspaceW

/-- XmlParser::NextChar: clear the current character, read one character
from the reader, and on success store it and advance m_DataPos. -/
def NextChar (s : ParserState) : Bool × ParserState :=
  let s0 := { s with m_CurChar := '\x00' }
  match memReadChar s0.input s0.m_ReaderPos with
  | none => (false, s0)
  | some (c, p) =>
      (true, { s0 with m_CurChar := c, m_ReaderPos := p, m_DataPos := s0.m_DataPos + 1 })

/-- XmlParser::EndOfDocument: delegate to the reader's EndOfFile. -/
def EndOfDocument (s : ParserState) : Bool :=
  memEndOfFile s.input s.m_ReaderPos

/-- The leading/trailing whitespace-skipping loops of NextToken. -/
def skipWs : Nat → ParserState → Option ParserState
  | fuel, s =>
    if iswspaceW s.m_CurChar then
      match fuel with
      | 0 => none
      | f + 1 => skipWs f (NextChar s).2
    else
      some s

/-- The quote-delimited accumulation loop of NextToken (q is the quote). -/
def scanQuoted (q : Char) : Nat → ParserState → Option ParserState
  | fuel, s =>
    if s.m_CurChar ≠ '\x00' && s.m_CurChar ≠ q then
      match fuel with
      | 0 => none
      | f + 1 => scanQuoted q f ((NextChar { s with m_CurToken := s.m_CurToken ++ [s.m_CurChar] }).2)
    else
      some s

/-- The unquoted accumulation loop of NextToken: consume until NUL or a
delimiter character. -/
def scanPlain (delims : List Char) : Nat → ParserState → Option ParserState
  | fuel, s =>
    if s.m_CurChar ≠ '\x00' && !delims.contains s.m_CurChar then
      match fuel with
      | 0 => none
      | f + 1 => scanPlain delims f ((NextChar { s with m_CurToken := s.m_CurToken ++ [s.m_CurChar] }).2)
    else
      some s

/-- XmlParser::NextToken: clear the token, skip leading whitespace, scan a
quoted or delimiter-bounded token, skip trailing whitespace, and fail only
when the token is empty and EndOfDocument holds. -/
def NextToken (delims : List Char) (fuel : Nat) (s : ParserState) : Option (Bool × ParserState) :=
  match skipWs fuel { s with m_CurToken := [] } with
  | none => none
  | some s1 =>
    let scanned : Option ParserState :=
      if s1.m_CurChar = '"' then
        match scanQuoted '"' fuel (NextChar s1).2 with
        | none => none
        | some s2 => some (if s2.m_CurChar = '"' then (NextChar s2).2 else s2)
      else if s1.m_CurChar = '\'' then
        match scanQuoted '\'' fuel (NextChar s1).2 with
        | none => none
        | some s2 => some (if s2.m_CurChar = '\'' then (NextChar s2).2 else s2)
      else
        scanPlain delims fuel s1
    match scanned with
    | none => none
    | some s2 =>
      match skipWs fuel s2 with
      | none => none
      | some s3 =>
        if s3.m_CurToken = [] && EndOfDocument s3 then some (false, s3)
        else some (true, s3)

/-- The accumulation loop of ParseTagValueNode: gather characters into the
value token until NUL or '<'. -/
def valueLoop : Nat → List Char → ParserState → Option (List Char × ParserState)
  | fuel, tok, s =>
    if s.m_CurChar ≠ '\x00' && s.m_CurChar ≠ '<' then
      match fuel with
      | 0 => none
      | f + 1 => valueLoop f (tok ++ [s.m_CurChar]) (NextChar s).2
    else
      some (tok, s)

/-- XmlParser::ParseTagValueNode. -/
def ParseTagValueNode (fuel : Nat) (pfx : List Char) (s : ParserState) :
    Option (Bool × Option XmlNode × ParserState) :=
  match valueLoop fuel pfx s with
  | none => none
  | some (token, s1) =>
    if s1.m_Stack = [] then
      if !IsWhiteSpace token then
        some (false, none,
          { s1 with m_ErrorInfo :=
              ("Unexpected data outside of all tags:  '").toList ++ token ++ ("'").toList })
      else
        some (false, none, s1)
    else
      match s1.m_Stack with
      | [] => some (false, none, { s1 with ubEmptyStack := true })
      | celm :: rest =>
        let celm' := { celm with m_Value := { m_Name := celm.m_Begin.m_Name, m_Value := token } }
        some (true, some (XmlNode.Value celm'.m_Value.m_Name celm'.m_Value.m_Value),
          { s1 with m_Stack := celm' :: rest })

/-- XmlParser::ParseEndTagNode. -/
def ParseEndTagNode (fuel : Nat) (s : ParserState) :
    Option (Bool × Option XmlNode × ParserState) :=
  let s1 := (NextChar s).2
  match NextToken xmlDelimsWithEquals fuel s1 with
  | none => none
  | some (ok, s2) =>
    if !ok then
      some (false, none, { s2 with m_ErrorInfo := ("Unexpected end of input.").toList })
    else
      let token := s2.m_CurToken
      if s2.m_CurChar ≠ '>' then
        some (false, none,
          { s2 with m_ErrorInfo := ("Expected '>' at end of tag:  ").toList ++ s2.m_CurToken })
      else
        let s3 := (NextChar s2).2
        if s3.m_Stack = [] then
          some (false, none,
            { s3 with m_ErrorInfo := ("Unexpected end tag outside of all tags:  ").toList ++ token })
        else
          match s3.m_Stack with
          | [] => some (false, none, { s3 with ubEmptyStack := true })
          | celm :: rest =>
            if token ≠ celm.m_Begin.m_Name then
              some (false, none,
                { s3 with m_ErrorInfo :=
                    ("Mismatched end tag, found '").toList ++ token ++
                    ("', expected '").toList ++ celm.m_Begin.m_Name ++ ("'").toList })
            else
              some (true, some (XmlNode.End celm.m_Begin.m_Name), { s3 with m_Stack := rest })

/-- XmlParser::EatComment: skip to and over the closing hyphen-hyphen-gt. -/
def EatComment : Nat → ParserState → Option (Bool × ParserState)
  | fuel, s =>
    if s.m_CurChar = '-' then
      let s1 := (NextChar s).2
      if s1.m_CurChar = '-' then
        let s2 := (NextChar s1).2
        if s2.m_CurChar = '>' then
          let r := NextChar s2
          if r.1 then some (true, r.2)
          else some (false, { r.2 with m_ErrorInfo := ("Unexpected end of input.").toList })
        else
          match fuel with
          | 0 => none
          | f + 1 => EatComment f s2
      else
        match fuel with
        | 0 => none
        | f + 1 => EatComment f s1
    else
      let r := NextChar s
      if r.1 then
        match fuel with
        | 0 => none
        | f + 1 => EatComment f r.2
      else
        some (false, { r.2 with m_ErrorInfo := ("Unexpected end of input.").toList })

/-- XmlParser::EatMarkedSection: skip to and over the closing bracket-bracket-gt. -/
def EatMarkedSection : Nat → ParserState → Option (Bool × ParserState)
  | fuel, s =>
    if s.m_CurChar = ']' then
      let s1 := (NextChar s).2
      if s1.m_CurChar = ']' then
        let s2 := (NextChar s1).2
        if s2.m_CurChar = '>' then
          let r := NextChar s2
          if r.1 then some (true, r.2)
          else some (false, { r.2 with m_ErrorInfo := ("Unexpected end of input.").toList })
        else
          match fuel with
          | 0 => none
          | f + 1 => EatMarkedSection f s2
      else
        match fuel with
        | 0 => none
        | f + 1 => EatMarkedSection f s1
    else
      let r := NextChar s
      if r.1 then
        match fuel with
        | 0 => none
        | f + 1 => EatMarkedSection f r.2
      else
        some (false, { r.2 with m_ErrorInfo := ("Unexpected end of input.").toList })

/-- The attribute-reading loop of ParseBeginTagNode, threading the element
under construction.  The C++ loop runs while the current character is none
of slash, gt, question mark; note that it ignores NextToken's return value,
and that it genuinely never terminates on some truncated inputs (none). -/
def attribLoop : Nat → XmlElementBase → ParserState → Option (XmlElementBase × ParserState)
  | fuel, elm, s =>
    if s.m_CurChar ≠ '/' && s.m_CurChar ≠ '>' && s.m_CurChar ≠ '?' then
      match fuel with
      | 0 => none
      | f + 1 =>
        match NextToken xmlDelimsWithEquals f s with
        | none => none
        | some (_, s1) =>
          let attribname := s1.m_CurToken
          if s1.m_CurChar = '=' then
            let s2 := (NextChar s1).2
            match NextToken xmlDelimsWithEquals f s2 with
            | none => none
            | some (_, s3) =>
              attribLoop f
                { elm with m_Begin :=
                    { elm.m_Begin with m_Attribs :=
                        elm.m_Begin.m_Attribs ++ [{ m_Name := attribname, m_Value := s3.m_CurToken }] } }
                s3
          else
            attribLoop f
              { elm with m_Begin :=
                  { elm.m_Begin with m_Attribs :=
                      elm.m_Begin.m_Attribs ++ [{ m_Name := attribname, m_Value := [] }] } }
              s1
    else
      some (elm, s)

/-- Final steps of ParseBeginTagNode (from the check for the trailing gt,
line 682): require and consume the closing gt, then push the element and
hand back a clone of its begin node. -/
def beginTagClose (elm3 : XmlElementBase) (s5 : ParserState) :
    Option (Bool × Option XmlNode × ParserState) :=
  if s5.m_CurChar ≠ '>' then
    some (false, none, { s5 with m_ErrorInfo := ("Expected '>' at end of tag.").toList })
  else
    let s6 := (NextChar s5).2
    some (true,
      some (XmlNode.Begin elm3.m_Begin.m_Name elm3.m_Begin.m_Offset elm3.m_Begin.m_Attribs),
      { s6 with m_Stack := elm3 :: s6.m_Stack })

/-- The trailing-slash check of ParseBeginTagNode (lines 673-679): a slash
marks the tag self-closing, setting the flag and the end-tag name. -/
def beginTagSlash (elm2 : XmlElementBase) (s4 : ParserState) :
    Option (Bool × Option XmlNode × ParserState) :=
  if s4.m_CurChar = '/' then
    beginTagClose { elm2 with m_End := { m_Name := elm2.m_Begin.m_Name } }
      { (NextChar s4).2 with m_PriorWasEmptyTag := true }
  else
    beginTagClose elm2 s4

/-- The question-mark handling of ParseBeginTagNode (lines 656-669): a tag
opened with a question mark must close with one and is always self-closing. -/
def beginTagQuestion (qm : Bool) (elm1 : XmlElementBase) (s3 : ParserState) :
    Option (Bool × Option XmlNode × ParserState) :=
  if qm && s3.m_CurChar ≠ '?' then
    some (false, none, { s3 with m_ErrorInfo := ("Expected '?' at end of tag.").toList })
  else if qm then
    beginTagSlash { elm1 with m_End := { m_Name := elm1.m_Begin.m_Name } }
      { (NextChar s3).2 with m_PriorWasEmptyTag := true }
  else
    beginTagSlash elm1 s3

/-- XmlParser::ParseBeginTagNode.  tagoffset is m_DataPos - 2 computed in
size_t arithmetic (explicit wrap mod 2^64).  The tail of the function, from
the question-mark check on, is factored into beginTagQuestion /
beginTagSlash / beginTagClose above. -/
def ParseBeginTagNode (fuel : Nat) (s : ParserState) :
    Option (Bool × Option XmlNode × ParserState) :=
  let tagoffset : Nat := (s.m_DataPos + (2 ^ 64 - 2)) % 2 ^ 64
  let qm : Bool := s.m_CurChar = '?'
  let s1 := if s.m_CurChar = '?' then (NextChar s).2 else s
  match NextToken xmlDelimsWithSlash fuel s1 with
  | none => none
  | some (ok, s2) =>
    if !ok then
      some (false, none, { s2 with m_ErrorInfo := ("Unexpected end of input.").toList })
    else
      let elm0 : XmlElementBase :=
        { emptyElement with m_Begin := { m_Name := s2.m_CurToken, m_Offset := tagoffset, m_Attribs := [] } }
      match attribLoop fuel elm0 s2 with
      | none => none
      | some (elm1, s3) => beginTagQuestion qm elm1 s3

/-- The whitespace-accumulating loop at the top of NextNode. -/
def wsAccum : Nat → List Char → ParserState → Option (List Char × ParserState)
  | fuel, tok, s =>
    if iswspaceW s.m_CurChar then
      match fuel with
      | 0 => none
      | f + 1 => wsAccum f (tok ++ [s.m_CurChar]) (NextChar s).2
    else
      some (tok, s)

/-- XmlParser::NextNode, with XmlParser::ParseBangTag inlined at its single
call site (the branch on '!'; the inlined block mirrors lines 557-583 of
nomxml.cpp, whose only recursion is back into NextNode).  The recursion is
passed in as recurse; NextNode below ties the knot, spending one unit of
fuel on each recursive resumption after a comment or marked section. -/
def NextNodeF (recurse : ParserState → Option (Bool × Option XmlNode × ParserState))
    (fuel : Nat) (s : ParserState) : Option (Bool × Option XmlNode × ParserState) :=
  if s.m_PriorWasEmptyTag && s.m_Stack ≠ [] then
    match s.m_Stack with
    | [] => some (false, none, { s with ubEmptyStack := true })
    | celm :: rest =>
      some (true, some (XmlNode.End celm.m_End.m_Name),
        { s with m_PriorWasEmptyTag := false, m_Stack := rest })
  else
    match wsAccum fuel [] s with
    | none => none
    | some (token, s1) =>
      if s1.m_CurChar = '<' then
        let s2 := (NextChar s1).2
        if s2.m_CurChar = '/' then
          ParseEndTagNode fuel s2
        else if s2.m_CurChar = '!' then
          -- ParseBangTag, inlined:
          let u1 := (NextChar s2).2
          let c1 := u1.m_CurChar
          let u2 := (NextChar u1).2
          if c1 = '[' then
            match EatMarkedSection fuel u2 with
            | none => none
            | some (_, u3) => recurse u3
          else if c1 = '-' && u2.m_CurChar = '-' then
            let u3 := (NextChar u2).2
            match EatComment fuel u3 with
            | none => none
            | some (_, u4) => recurse u4
          else
            some (false, none, { u2 with m_ErrorInfo := ("Malformed tag beginning with '!'").toList })
        else
          ParseBeginTagNode fuel s2
      else
        ParseTagValueNode fuel token s1

/-- XmlParser::NextNode proper: the knot-tying wrapper over NextNodeF. -/
def NextNode : Nat → ParserState → Option (Bool × Option XmlNode × ParserState)
  | 0, s => NextNodeF (fun _ => none) 0 s
  | fuel + 1, s => NextNodeF (NextNode fuel) (fuel + 1) s

/-- Fresh parser state bound to a memory buffer (XmlParser construction
followed by attaching an XmlMemoryInputInterface, before BeginParsingImpl). -/
def freshState (doc : List Char) : ParserState :=
  { input := doc, m_ReaderPos := 0, m_DataSize := 0, m_DataPos := 0,
    m_CurChar := '\x00', m_CurToken := [], m_Stack := [],
    m_PriorWasEmptyTag := false, m_ErrorInfo := [], ubEmptyStack := false }

/-- XmlParser::BeginParsingFromMemory on a fresh parser: install the memory
reader and run BeginParsingImpl (record the file length, prime the first
character, and fail with the empty-document diagnostic if that read fails). -/
def BeginParsingFromMemory (doc : List Char) : Bool × ParserState :=
  let s := { freshState doc with m_DataSize := doc.length }
  let r := NextChar s
  if r.1 then (true, r.2)
  else (false, { r.2 with m_ErrorInfo := ("Empty document.  No XML tags found.").toList })

/-- Iterate NextNode for at most steps calls, each given the same fuel,
collecting the nodes of the successful calls, until a call returns false
(some) or the step budget runs out (none). -/
def run (fuel : Nat) : Nat → ParserState → Option (List XmlNode × ParserState)
  | 0, _ => none
  | steps + 1, s =>
    match NextNode fuel s with
    | none => none
    | some (false, _, s') => some ([], s')
    | some (true, nd, s') =>
      match run fuel steps s' with
      | none => none
      | some (tr, sF) => some (nd.toList ++ tr, sF)

/-- The events of a whole parse session from a memory buffer, provided the
session terminates within the budgets AND ends with empty error text. -/
def acceptedEvents (doc : List Char) (fuel steps : Nat) : Option (List XmlNode) :=
  match run fuel steps (BeginParsingFromMemory doc).2 with
  | none => none
  | some (tr, sF) => if sF.m_ErrorInfo = [] then some tr else none

/-- Names of the Open events of a trace, in order. -/
def openNames : List XmlNode → List (List Char)
  | [] => []
  | XmlNode.Begin n _ _ :: es => n :: openNames es
  | _ :: es => openNames es

/-- Names of the Close events of a trace, in order. -/
def closeNames : List XmlNode → List (List Char)
  | [] => []
  | XmlNode.End n :: es => n :: closeNames es
  | _ :: es => closeNames es

/-- Proper nesting of a trace against a pending stack of open names: every
Close matches the most recent unmatched Open and nothing stays open. -/
def nestingOk : List XmlNode → List (List Char) → Bool
  | [], stk => stk.isEmpty
  | XmlNode.Begin n _ _ :: es, stk => nestingOk es (n :: stk)
  | XmlNode.End n :: es, stk =>
    match stk with
    | [] => false
    | t :: r => t = n && nestingOk es r
  | XmlNode.Value _ _ :: es, stk => nestingOk es stk

/-- The names of the currently open elements, innermost first. -/
def stackNames (s : ParserState) : List (List Char) :=
  s.m_Stack.map (fun e => e.m_Begin.m_Name)

/-- XmlParser::CurPosition. -/
def CurPosition (s : ParserState) : Nat := s.m_DataPos

/-- The parser-private fields that the character/token level never touches:
input buffer, element stack, self-closing flag, error text, and the
instrumentation flag. -/
def FrameEq (s t : ParserState) : Prop :=
  t.input = s.input ∧ t.m_Stack = s.m_Stack ∧ t.m_PriorWasEmptyTag = s.m_PriorWasEmptyTag ∧
  t.m_ErrorInfo = s.m_ErrorInfo ∧ t.ubEmptyStack = s.ubEmptyStack

theorem frameEq_refl (s : ParserState) : FrameEq s s :=
  ⟨rfl, rfl, rfl, rfl, rfl⟩

theorem frameEq_trans {s t u : ParserState} (h1 : FrameEq s t) (h2 : FrameEq t u) : FrameEq s u :=
  ⟨h2.1.trans h1.1, h2.2.1.trans h1.2.1, h2.2.2.1.trans h1.2.2.1,
   h2.2.2.2.1.trans h1.2.2.2.1, h2.2.2.2.2.trans h1.2.2.2.2⟩

theorem nextChar_frame (s : ParserState) : FrameEq s (NextChar s).2 := by
  cases h : memReadChar s.input s.m_ReaderPos with
  | none => simp [NextChar, FrameEq, h]
  | some cp => simp [NextChar, FrameEq, h]

theorem skipWs_frame : ∀ fuel s s', skipWs fuel s = some s' → FrameEq s s' := by
  intro fuel
  induction fuel with
  | zero =>
    intro s s' h
    rw [skipWs] at h
    split at h
    · exact absurd h (by simp)
    · exact (Option.some_inj.mp h) ▸ frameEq_refl s
  | succ f ih =>
    intro s s' h
    rw [skipWs] at h
    split at h
    · exact frameEq_trans (nextChar_frame s) (ih _ _ h)
    · exact (Option.some_inj.mp h) ▸ frameEq_refl s

theorem scanQuoted_frame : ∀ q fuel s s', scanQuoted q fuel s = some s' → FrameEq s s' := by
  intro q fuel
  induction fuel with
  | zero =>
    intro s s' h
    rw [scanQuoted] at h
    split at h
    · exact absurd h (by simp)
    · exact (Option.some_inj.mp h) ▸ frameEq_refl s
  | succ f ih =>
    intro s s' h
    rw [scanQuoted] at h
    split at h
    · exact frameEq_trans
        (frameEq_trans (⟨rfl, rfl, rfl, rfl, rfl⟩ :
          FrameEq s { s with m_CurToken := s.m_CurToken ++ [s.m_CurChar] })
          (nextChar_frame _)) (ih _ _ h)
    · exact (Option.some_inj.mp h) ▸ frameEq_refl s

theorem scanPlain_frame : ∀ delims fuel s s', scanPlain delims fuel s = some s' → FrameEq s s' := by
  intro delims fuel
  induction fuel with
  | zero =>
    intro s s' h
    rw [scanPlain] at h
    split at h
    · exact absurd h (by simp)
    · exact (Option.some_inj.mp h) ▸ frameEq_refl s
  | succ f ih =>
    intro s s' h
    rw [scanPlain] at h
    split at h
    · exact frameEq_trans
        (frameEq_trans (⟨rfl, rfl, rfl, rfl, rfl⟩ :
          FrameEq s { s with m_CurToken := s.m_CurToken ++ [s.m_CurChar] })
          (nextChar_frame _)) (ih _ _ h)
    · exact (Option.some_inj.mp h) ▸ frameEq_refl s

theorem nextToken_frame : ∀ delims fuel s b s', NextToken delims fuel s = some (b, s') → FrameEq s s' := by
  intro delims fuel s b s' h
  unfold NextToken at h
  cases h0 : skipWs fuel { s with m_CurToken := [] } with
  | none => rw [h0] at h; exact absurd h (by simp)
  | some s1 =>
    rw [h0] at h
    have f0 : FrameEq s s1 :=
      frameEq_trans (⟨rfl, rfl, rfl, rfl, rfl⟩ : FrameEq s { s with m_CurToken := [] })
        (skipWs_frame _ _ _ h0)
    simp only at h
    cases hsc : (if s1.m_CurChar = '"' then
        match scanQuoted '"' fuel (NextChar s1).2 with
        | none => none
        | some s2 => some (if s2.m_CurChar = '"' then (NextChar s2).2 else s2)
      else if s1.m_CurChar = '\'' then
        match scanQuoted '\'' fuel (NextChar s1).2 with
        | none => none
        | some s2 => some (if s2.m_CurChar = '\'' then (NextChar s2).2 else s2)
      else
        scanPlain delims fuel s1) with
    | none => rw [hsc] at h; exact absurd h (by simp)
    | some s2 =>
      rw [hsc] at h
      simp only at h
      have f2 : FrameEq s1 s2 := by
        split at hsc
        · cases hq : scanQuoted '"' fuel (NextChar s1).2 with
          | none => rw [hq] at hsc; exact absurd hsc (by simp)
          | some t =>
            rw [hq] at hsc
            have ft : FrameEq s1 t := frameEq_trans (nextChar_frame s1) (scanQuoted_frame _ _ _ _ hq)
            have hs2 := Option.some_inj.mp hsc
            subst hs2
            split
            · exact frameEq_trans ft (nextChar_frame t)
            · exact ft
        · split at hsc
          · cases hq : scanQuoted '\'' fuel (NextChar s1).2 with
            | none => rw [hq] at hsc; exact absurd hsc (by simp)
            | some t =>
              rw [hq] at hsc
              have ft : FrameEq s1 t := frameEq_trans (nextChar_frame s1) (scanQuoted_frame _ _ _ _ hq)
              have hs2 := Option.some_inj.mp hsc
              subst hs2
              split
              · exact frameEq_trans ft (nextChar_frame t)
              · exact ft
          · exact scanPlain_frame _ _ _ _ hsc
      cases h2 : skipWs fuel s2 with
      | none => rw [h2] at h; exact absurd h (by simp)
      | some s3 =>
        rw [h2] at h
        simp only at h
        have f3 : FrameEq s s3 := frameEq_trans (frameEq_trans f0 f2) (skipWs_frame _ _ _ h2)
        split at h <;>
          { have hp := Option.some_inj.mp h
            have hs : s3 = s' := congrArg Prod.snd hp
            exact hs ▸ f3 }

/-- The state fields other than the error text that the helper routines
never touch. -/
def CoreEq (s t : ParserState) : Prop :=
  t.input = s.input ∧ t.m_Stack = s.m_Stack ∧ t.m_PriorWasEmptyTag = s.m_PriorWasEmptyTag ∧
  t.ubEmptyStack = s.ubEmptyStack

theorem coreEq_refl (s : ParserState) : CoreEq s s := ⟨rfl, rfl, rfl, rfl⟩

theorem coreEq_trans {s t u : ParserState} (h1 : CoreEq s t) (h2 : CoreEq t u) : CoreEq s u :=
  ⟨h2.1.trans h1.1, h2.2.1.trans h1.2.1, h2.2.2.1.trans h1.2.2.1, h2.2.2.2.trans h1.2.2.2⟩

theorem frameEq_coreEq {s t : ParserState} (h : FrameEq s t) : CoreEq s t :=
  ⟨h.1, h.2.1, h.2.2.1, h.2.2.2.2⟩

theorem wsAccum_spec : ∀ fuel tok s tok' s', wsAccum fuel tok s = some (tok', s') →
    FrameEq s s' ∧ iswspaceW s'.m_CurChar = false ∧
    (IsWhiteSpace tok = true → IsWhiteSpace tok' = true) := by
  intro fuel
  induction fuel with
  | zero =>
    intro tok s tok' s' h
    rw [wsAccum] at h
    split at h
    · exact absurd h (by simp)
    · have hp := Option.some_inj.mp h
      have ht : tok = tok' := congrArg Prod.fst hp
      have hs : s = s' := congrArg Prod.snd hp
      subst ht; subst hs
      refine ⟨frameEq_refl s, ?_, fun hw => hw⟩
      simpa using (by assumption : ¬ iswspaceW s.m_CurChar = true)
  | succ f ih =>
    intro tok s tok' s' h
    rw [wsAccum] at h
    split at h
    · rename_i hws
      obtain ⟨hf, hx, hw⟩ := ih _ _ _ _ h
      refine ⟨frameEq_trans (nextChar_frame s) hf, hx, fun hwt => ?_⟩
      exact hw (by simp [IsWhiteSpace] at hwt ⊢; exact ⟨hwt, hws⟩)
    · have hp := Option.some_inj.mp h
      have ht : tok = tok' := congrArg Prod.fst hp
      have hs : s = s' := congrArg Prod.snd hp
      subst ht; subst hs
      refine ⟨frameEq_refl s, ?_, fun hw => hw⟩
      simpa using (by assumption : ¬ iswspaceW s.m_CurChar = true)

theorem valueLoop_prefix : ∀ fuel tok s tok' s', valueLoop fuel tok s = some (tok', s') →
    ∃ ext, tok' = tok ++ ext := by
  intro fuel
  induction fuel with
  | zero =>
    intro tok s tok' s' h
    rw [valueLoop] at h
    split at h
    · exact absurd h (by simp)
    · have ht : tok = tok' := congrArg Prod.fst (Option.some_inj.mp h)
      exact ⟨[], by simp [ht.symm]⟩
  | succ f ih =>
    intro tok s tok' s' h
    rw [valueLoop] at h
    split at h
    · obtain ⟨ext, he⟩ := ih _ _ _ _ h
      exact ⟨s.m_CurChar :: ext, by simp [he]⟩
    · have ht : tok = tok' := congrArg Prod.fst (Option.some_inj.mp h)
      exact ⟨[], by simp [ht.symm]⟩

theorem valueLoop_spec : ∀ fuel tok s tok' s', valueLoop fuel tok s = some (tok', s') →
    FrameEq s s' ∧ (s'.m_CurChar = '\x00' ∨ s'.m_CurChar = '<') := by
  intro fuel
  induction fuel with
  | zero =>
    intro tok s tok' s' h
    rw [valueLoop] at h
    split at h
    · exact absurd h (by simp)
    · have hs : s = s' := congrArg Prod.snd (Option.some_inj.mp h)
      subst hs
      refine ⟨frameEq_refl s, ?_⟩
      rename_i hc
      have hc' : ¬s.m_CurChar = '\x00' → s.m_CurChar = '<' := by simpa using hc
      by_cases h0 : s.m_CurChar = '\x00'
      · exact Or.inl h0
      · exact Or.inr (hc' h0)
  | succ f ih =>
    intro tok s tok' s' h
    rw [valueLoop] at h
    split at h
    · obtain ⟨hf, hx⟩ := ih _ _ _ _ h
      exact ⟨frameEq_trans (nextChar_frame s) hf, hx⟩
    · have hs : s = s' := congrArg Prod.snd (Option.some_inj.mp h)
      subst hs
      refine ⟨frameEq_refl s, ?_⟩
      rename_i hc
      have hc' : ¬s.m_CurChar = '\x00' → s.m_CurChar = '<' := by simpa using hc
      by_cases h0 : s.m_CurChar = '\x00'
      · exact Or.inl h0
      · exact Or.inr (hc' h0)

theorem eatComment_spec : ∀ fuel s b s', EatComment fuel s = some (b, s') →
    CoreEq s s' ∧ (b = true → s'.m_ErrorInfo = s.m_ErrorInfo) ∧
    (b = false → s'.m_ErrorInfo = ("Unexpected end of input.").toList) := by
  intro fuel
  induction fuel with
  | zero =>
    intro s b s' h
    rw [EatComment] at h
    simp only at h
    split at h
    · split at h
      · split at h
        · split at h
          · injection h with hp
            injection hp with hb hs
            subst hb; subst hs
            have fr : FrameEq s (NextChar (NextChar (NextChar s).2).2).2 :=
              frameEq_trans (nextChar_frame s)
                (frameEq_trans (nextChar_frame _) (nextChar_frame _))
            exact ⟨frameEq_coreEq fr, fun _ => fr.2.2.2.1, fun hx => nomatch hx⟩
          · injection h with hp
            injection hp with hb hs
            subst hb; subst hs
            have fr : FrameEq s (NextChar (NextChar (NextChar s).2).2).2 :=
              frameEq_trans (nextChar_frame s)
                (frameEq_trans (nextChar_frame _) (nextChar_frame _))
            refine ⟨⟨fr.1, fr.2.1, fr.2.2.1, fr.2.2.2.2⟩, ?_, ?_⟩
            · intro hx; exact absurd hx (by decide)
            · intro hx; rfl
        · exact absurd h (by simp)
      · exact absurd h (by simp)
    · split at h
      · exact absurd h (by simp)
      · injection h with hp
        injection hp with hb hs
        subst hb; subst hs
        have fr : FrameEq s (NextChar s).2 := nextChar_frame s
        refine ⟨⟨fr.1, fr.2.1, fr.2.2.1, fr.2.2.2.2⟩, ?_, ?_⟩
        · intro hx; exact absurd hx (by decide)
        · intro hx; rfl
  | succ f ih =>
    intro s b s' h
    rw [EatComment] at h
    simp only at h
    split at h
    · split at h
      · split at h
        · split at h
          · injection h with hp
            injection hp with hb hs
            subst hb; subst hs
            have fr : FrameEq s (NextChar (NextChar (NextChar s).2).2).2 :=
              frameEq_trans (nextChar_frame s)
                (frameEq_trans (nextChar_frame _) (nextChar_frame _))
            exact ⟨frameEq_coreEq fr, fun _ => fr.2.2.2.1, fun hx => nomatch hx⟩
          · injection h with hp
            injection hp with hb hs
            subst hb; subst hs
            have fr : FrameEq s (NextChar (NextChar (NextChar s).2).2).2 :=
              frameEq_trans (nextChar_frame s)
                (frameEq_trans (nextChar_frame _) (nextChar_frame _))
            refine ⟨⟨fr.1, fr.2.1, fr.2.2.1, fr.2.2.2.2⟩, ?_, ?_⟩
            · intro hx; exact absurd hx (by decide)
            · intro hx; rfl
        · obtain ⟨hc, ht, hf⟩ := ih _ _ _ h
          have fr : FrameEq s (NextChar (NextChar s).2).2 :=
            frameEq_trans (nextChar_frame s) (nextChar_frame _)
          refine ⟨coreEq_trans (frameEq_coreEq fr) hc, fun hx => ?_, hf⟩
          rw [ht hx, fr.2.2.2.1]
      · obtain ⟨hc, ht, hf⟩ := ih _ _ _ h
        have fr : FrameEq s (NextChar s).2 := nextChar_frame s
        refine ⟨coreEq_trans (frameEq_coreEq fr) hc, fun hx => ?_, hf⟩
        rw [ht hx, fr.2.2.2.1]
    · split at h
      · obtain ⟨hc, ht, hf⟩ := ih _ _ _ h
        have fr : FrameEq s (NextChar s).2 := nextChar_frame s
        refine ⟨coreEq_trans (frameEq_coreEq fr) hc, fun hx => ?_, hf⟩
        rw [ht hx, fr.2.2.2.1]
      · injection h with hp
        injection hp with hb hs
        subst hb; subst hs
        have fr : FrameEq s (NextChar s).2 := nextChar_frame s
        refine ⟨⟨fr.1, fr.2.1, fr.2.2.1, fr.2.2.2.2⟩, ?_, ?_⟩
        · intro hx; exact absurd hx (by decide)
        · intro hx; rfl

theorem eatMarkedSection_spec : ∀ fuel s b s', EatMarkedSection fuel s = some (b, s') →
    CoreEq s s' ∧ (b = true → s'.m_ErrorInfo = s.m_ErrorInfo) ∧
    (b = false → s'.m_ErrorInfo = ("Unexpected end of input.").toList) := by
  intro fuel
  induction fuel with
  | zero =>
    intro s b s' h
    rw [EatMarkedSection] at h
    simp only at h
    split at h
    · split at h
      · split at h
        · split at h
          · injection h with hp
            injection hp with hb hs
            subst hb; subst hs
            have fr : FrameEq s (NextChar (NextChar (NextChar s).2).2).2 :=
              frameEq_trans (nextChar_frame s)
                (frameEq_trans (nextChar_frame _) (nextChar_frame _))
            exact ⟨frameEq_coreEq fr, fun _ => fr.2.2.2.1, fun hx => nomatch hx⟩
          · injection h with hp
            injection hp with hb hs
            subst hb; subst hs
            have fr : FrameEq s (NextChar (NextChar (NextChar s).2).2).2 :=
              frameEq_trans (nextChar_frame s)
                (frameEq_trans (nextChar_frame _) (nextChar_frame _))
            refine ⟨⟨fr.1, fr.2.1, fr.2.2.1, fr.2.2.2.2⟩, ?_, ?_⟩
            · intro hx; exact absurd hx (by decide)
            · intro hx; rfl
        · exact absurd h (by simp)
      · exact absurd h (by simp)
    · split at h
      · exact absurd h (by simp)
      · injection h with hp
        injection hp with hb hs
        subst hb; subst hs
        have fr : FrameEq s (NextChar s).2 := nextChar_frame s
        refine ⟨⟨fr.1, fr.2.1, fr.2.2.1, fr.2.2.2.2⟩, ?_, ?_⟩
        · intro hx; exact absurd hx (by decide)
        · intro hx; rfl
  | succ f ih =>
    intro s b s' h
    rw [EatMarkedSection] at h
    simp only at h
    split at h
    · split at h
      · split at h
        · split at h
          · injection h with hp
            injection hp with hb hs
            subst hb; subst hs
            have fr : FrameEq s (NextChar (NextChar (NextChar s).2).2).2 :=
              frameEq_trans (nextChar_frame s)
                (frameEq_trans (nextChar_frame _) (nextChar_frame _))
            exact ⟨frameEq_coreEq fr, fun _ => fr.2.2.2.1, fun hx => nomatch hx⟩
          · injection h with hp
            injection hp with hb hs
            subst hb; subst hs
            have fr : FrameEq s (NextChar (NextChar (NextChar s).2).2).2 :=
              frameEq_trans (nextChar_frame s)
                (frameEq_trans (nextChar_frame _) (nextChar_frame _))
            refine ⟨⟨fr.1, fr.2.1, fr.2.2.1, fr.2.2.2.2⟩, ?_, ?_⟩
            · intro hx; exact absurd hx (by decide)
            · intro hx; rfl
        · obtain ⟨hc, ht, hf⟩ := ih _ _ _ h
          have fr : FrameEq s (NextChar (NextChar s).2).2 :=
            frameEq_trans (nextChar_frame s) (nextChar_frame _)
          refine ⟨coreEq_trans (frameEq_coreEq fr) hc, fun hx => ?_, hf⟩
          rw [ht hx, fr.2.2.2.1]
      · obtain ⟨hc, ht, hf⟩ := ih _ _ _ h
        have fr : FrameEq s (NextChar s).2 := nextChar_frame s
        refine ⟨coreEq_trans (frameEq_coreEq fr) hc, fun hx => ?_, hf⟩
        rw [ht hx, fr.2.2.2.1]
    · split at h
      · obtain ⟨hc, ht, hf⟩ := ih _ _ _ h
        have fr : FrameEq s (NextChar s).2 := nextChar_frame s
        refine ⟨coreEq_trans (frameEq_coreEq fr) hc, fun hx => ?_, hf⟩
        rw [ht hx, fr.2.2.2.1]
      · injection h with hp
        injection hp with hb hs
        subst hb; subst hs
        have fr : FrameEq s (NextChar s).2 := nextChar_frame s
        refine ⟨⟨fr.1, fr.2.1, fr.2.2.1, fr.2.2.2.2⟩, ?_, ?_⟩
        · intro hx; exact absurd hx (by decide)
        · intro hx; rfl

theorem attribLoop_spec : ∀ fuel elm s elm' s', attribLoop fuel elm s = some (elm', s') →
    FrameEq s s' ∧ elm'.m_Begin.m_Name = elm.m_Begin.m_Name ∧
    elm'.m_Begin.m_Offset = elm.m_Begin.m_Offset ∧ elm'.m_End = elm.m_End := by
  intro fuel
  induction fuel with
  | zero =>
    intro elm s elm' s' h
    rw [attribLoop] at h
    split at h
    · exact absurd h (by simp)
    · injection h with hp
      injection hp with he hs
      subst he; subst hs
      exact ⟨frameEq_refl s, rfl, rfl, rfl⟩
  | succ f ih =>
    intro elm s elm' s' h
    rw [attribLoop] at h
    simp only at h
    split at h
    · cases h1 : NextToken xmlDelimsWithEquals f s with
      | none => rw [h1] at h; exact absurd h (by simp)
      | some r1 =>
        rw [h1] at h
        simp only at h
        obtain ⟨ok1, s1⟩ := r1
        have f1 : FrameEq s s1 := nextToken_frame _ _ _ _ _ h1
        split at h
        · cases h2 : NextToken xmlDelimsWithEquals f (NextChar s1).2 with
          | none => rw [h2] at h; exact absurd h (by simp)
          | some r2 =>
            rw [h2] at h
            simp only at h
            obtain ⟨ok2, s3⟩ := r2
            obtain ⟨ff, hn, ho, he⟩ := ih _ _ _ _ h
            have f3 : FrameEq s s3 :=
              frameEq_trans f1 (frameEq_trans (nextChar_frame s1) (nextToken_frame _ _ _ _ _ h2))
            exact ⟨frameEq_trans f3 ff, hn, ho, he⟩
        · obtain ⟨ff, hn, ho, he⟩ := ih _ _ _ _ h
          exact ⟨frameEq_trans f1 ff, hn, ho, he⟩
    · injection h with hp
      injection hp with he hs
      subst he; subst hs
      exact ⟨frameEq_refl s, rfl, rfl, rfl⟩

theorem parseTagValue_spec : ∀ fuel pfx s b nd s', ParseTagValueNode fuel pfx s = some (b, nd, s') →
    (s'.input = s.input ∧ s'.m_PriorWasEmptyTag = s.m_PriorWasEmptyTag ∧
      s'.ubEmptyStack = s.ubEmptyStack) ∧
    (b = true → ∃ celm rest tok, s.m_Stack = celm :: rest ∧
      s'.m_Stack = { celm with m_Value := { m_Name := celm.m_Begin.m_Name, m_Value := tok } } :: rest ∧
      nd = some (XmlNode.Value celm.m_Begin.m_Name tok) ∧ s'.m_ErrorInfo = s.m_ErrorInfo) ∧
    (b = false → nd = none ∧ s'.m_Stack = s.m_Stack ∧
      (s'.m_ErrorInfo = s.m_ErrorInfo ∨ s'.m_ErrorInfo ≠ [])) := by
  intro fuel pfx s b nd s' h
  unfold ParseTagValueNode at h
  cases hv : valueLoop fuel pfx s with
  | none => rw [hv] at h; exact absurd h (by simp)
  | some r =>
    rw [hv] at h
    obtain ⟨token, s1⟩ := r
    obtain ⟨fv, _⟩ := valueLoop_spec _ _ _ _ _ hv
    simp only at h
    split at h
    · split at h
      · injection h with hp
        injection hp with hb hq
        injection hq with hn hs
        subst hb; subst hn; subst hs
        refine ⟨⟨fv.1, fv.2.2.1, fv.2.2.2.2⟩, ?_, ?_⟩
        · intro hx; exact absurd hx (by decide)
        · intro hx
          refine ⟨rfl, fv.2.1, Or.inr ?_⟩
          simp
      · injection h with hp
        injection hp with hb hq
        injection hq with hn hs
        subst hb; subst hn; subst hs
        refine ⟨⟨fv.1, fv.2.2.1, fv.2.2.2.2⟩, ?_, ?_⟩
        · intro hx; exact absurd hx (by decide)
        · intro hx
          exact ⟨rfl, fv.2.1, Or.inl fv.2.2.2.1⟩
    · rename_i hne
      split at h
      · rename_i heq
        exact absurd heq hne
      · rename_i celm rest heq
        injection h with hp
        injection hp with hb hq
        injection hq with hn hs
        subst hb; subst hn; subst hs
        refine ⟨⟨fv.1, fv.2.2.1, fv.2.2.2.2⟩, ?_, ?_⟩
        · intro hx
          refine ⟨celm, rest, token, ?_, ?_, rfl, fv.2.2.2.1⟩
          · rw [← fv.2.1]; exact heq
          · rfl
        · intro hx; exact absurd hx (by decide)

theorem parseEndTag_spec : ∀ fuel s b nd s', ParseEndTagNode fuel s = some (b, nd, s') →
    (s'.input = s.input ∧ s'.m_PriorWasEmptyTag = s.m_PriorWasEmptyTag ∧
      s'.ubEmptyStack = s.ubEmptyStack) ∧
    (b = true → ∃ celm rest, s.m_Stack = celm :: rest ∧ s'.m_Stack = rest ∧
      nd = some (XmlNode.End celm.m_Begin.m_Name) ∧ s'.m_ErrorInfo = s.m_ErrorInfo) ∧
    (b = false → nd = none ∧ s'.m_Stack = s.m_Stack ∧ s'.m_ErrorInfo ≠ []) := by
  intro fuel s b nd s' h
  unfold ParseEndTagNode at h
  simp only at h
  cases ht : NextToken xmlDelimsWithEquals fuel (NextChar s).2 with
  | none => rw [ht] at h; exact absurd h (by simp)
  | some r =>
    rw [ht] at h
    obtain ⟨ok, s2⟩ := r
    have f2 : FrameEq s s2 := frameEq_trans (nextChar_frame s) (nextToken_frame _ _ _ _ _ ht)
    simp only at h
    split at h
    · injection h with hp
      injection hp with hb hq
      injection hq with hn hs
      subst hb; subst hn; subst hs
      refine ⟨⟨f2.1, f2.2.2.1, f2.2.2.2.2⟩, ?_, ?_⟩
      · intro hx; exact absurd hx (by decide)
      · intro hx; exact ⟨rfl, f2.2.1, by simp⟩
    · split at h
      · injection h with hp
        injection hp with hb hq
        injection hq with hn hs
        subst hb; subst hn; subst hs
        refine ⟨⟨f2.1, f2.2.2.1, f2.2.2.2.2⟩, ?_, ?_⟩
        · intro hx; exact absurd hx (by decide)
        · intro hx; exact ⟨rfl, f2.2.1, by simp⟩
      · have f3 : FrameEq s (NextChar s2).2 := frameEq_trans f2 (nextChar_frame s2)
        split at h
        · injection h with hp
          injection hp with hb hq
          injection hq with hn hs
          subst hb; subst hn; subst hs
          refine ⟨⟨f3.1, f3.2.2.1, f3.2.2.2.2⟩, ?_, ?_⟩
          · intro hx; exact absurd hx (by decide)
          · intro hx; exact ⟨rfl, f3.2.1, by simp⟩
        · rename_i hne
          split at h
          · rename_i heq
            exact absurd heq hne
          · rename_i celm rest heq
            split at h
            · injection h with hp
              injection hp with hb hq
              injection hq with hn hs
              subst hb; subst hn; subst hs
              refine ⟨⟨f3.1, f3.2.2.1, f3.2.2.2.2⟩, ?_, ?_⟩
              · intro hx; exact absurd hx (by decide)
              · intro hx; exact ⟨rfl, f3.2.1, by simp⟩
            · injection h with hp
              injection hp with hb hq
              injection hq with hn hs
              subst hb; subst hn; subst hs
              refine ⟨⟨f3.1, f3.2.2.1, f3.2.2.2.2⟩, ?_, ?_⟩
              · intro hx
                refine ⟨celm, rest, ?_, rfl, rfl, f3.2.2.2.1⟩
                rw [← f3.2.1]; exact heq
              · intro hx; exact absurd hx (by decide)

theorem beginTagClose_spec : ∀ elm3 s5 b nd s', beginTagClose elm3 s5 = some (b, nd, s') →
    (s'.input = s5.input ∧ s'.ubEmptyStack = s5.ubEmptyStack) ∧
    (b = true → s'.m_Stack = elm3 :: s5.m_Stack ∧
      nd = some (XmlNode.Begin elm3.m_Begin.m_Name elm3.m_Begin.m_Offset elm3.m_Begin.m_Attribs) ∧
      s'.m_ErrorInfo = s5.m_ErrorInfo ∧ s'.m_PriorWasEmptyTag = s5.m_PriorWasEmptyTag) ∧
    (b = false → nd = none ∧ s'.m_Stack = s5.m_Stack ∧ s'.m_ErrorInfo ≠ [] ∧
      s'.m_PriorWasEmptyTag = s5.m_PriorWasEmptyTag) := by
  intro elm3 s5 b nd s' h
  unfold beginTagClose at h
  split at h
  · injection h with hp
    injection hp with hb hq
    injection hq with hn hs
    subst hb; subst hn; subst hs
    refine ⟨⟨rfl, rfl⟩, ?_, ?_⟩
    · intro hx; exact absurd hx (by decide)
    · intro hx; exact ⟨rfl, rfl, by simp, rfl⟩
  · simp only at h
    injection h with hp
    injection hp with hb hq
    injection hq with hn hs
    subst hb; subst hn; subst hs
    have fr : FrameEq s5 (NextChar s5).2 := nextChar_frame s5
    refine ⟨⟨fr.1, fr.2.2.2.2⟩, ?_, ?_⟩
    · intro hx
      exact ⟨by rw [fr.2.1], rfl, fr.2.2.2.1, fr.2.2.1⟩
    · intro hx; exact absurd hx (by decide)

theorem beginTagSlash_spec : ∀ elm2 s4 b nd s', beginTagSlash elm2 s4 = some (b, nd, s') →
    (s'.input = s4.input ∧ s'.ubEmptyStack = s4.ubEmptyStack) ∧
    (b = true →
      (∃ elm, s'.m_Stack = elm :: s4.m_Stack ∧
        nd = some (XmlNode.Begin elm.m_Begin.m_Name elm.m_Begin.m_Offset elm.m_Begin.m_Attribs) ∧
        s'.m_ErrorInfo = s4.m_ErrorInfo ∧ elm.m_Begin = elm2.m_Begin ∧ elm.m_End = elm2.m_End ∧
        s'.m_PriorWasEmptyTag = s4.m_PriorWasEmptyTag) ∨
      (∃ elm, s'.m_Stack = elm :: s4.m_Stack ∧
        nd = some (XmlNode.Begin elm.m_Begin.m_Name elm.m_Begin.m_Offset elm.m_Begin.m_Attribs) ∧
        s'.m_ErrorInfo = s4.m_ErrorInfo ∧ elm.m_Begin = elm2.m_Begin ∧
        elm.m_End.m_Name = elm2.m_Begin.m_Name ∧ s'.m_PriorWasEmptyTag = true)) ∧
    (b = false → nd = none ∧ s'.m_Stack = s4.m_Stack ∧ s'.m_ErrorInfo ≠ []) := by
  intro elm2 s4 b nd s' h
  unfold beginTagSlash at h
  split at h
  · have fr : FrameEq s4 (NextChar s4).2 := nextChar_frame s4
    obtain ⟨hio, ht, hf⟩ := beginTagClose_spec _ _ _ _ _ h
    refine ⟨⟨hio.1.trans fr.1, hio.2.trans fr.2.2.2.2⟩, ?_, ?_⟩
    · intro hx
      obtain ⟨hst, hnd, herr, hflag⟩ := ht hx
      refine Or.inr ⟨{ elm2 with m_End := { m_Name := elm2.m_Begin.m_Name } }, ?_,
        hnd, herr.trans fr.2.2.2.1, rfl, rfl, hflag⟩
      rw [hst, fr.2.1]
    · intro hx
      obtain ⟨hnd, hst, herr, _⟩ := hf hx
      exact ⟨hnd, hst.trans fr.2.1, herr⟩
  · obtain ⟨hio, ht, hf⟩ := beginTagClose_spec _ _ _ _ _ h
    refine ⟨hio, ?_, ?_⟩
    · intro hx
      obtain ⟨hst, hnd, herr, hflag⟩ := ht hx
      exact Or.inl ⟨elm2, hst, hnd, herr, rfl, rfl, hflag⟩
    · intro hx
      obtain ⟨hnd, hst, herr, _⟩ := hf hx
      exact ⟨hnd, hst, herr⟩

theorem beginTagQuestion_spec : ∀ qm elm1 s3 b nd s', beginTagQuestion qm elm1 s3 = some (b, nd, s') →
    (s'.input = s3.input ∧ s'.ubEmptyStack = s3.ubEmptyStack) ∧
    (b = true → ∃ elm, s'.m_Stack = elm :: s3.m_Stack ∧
      nd = some (XmlNode.Begin elm.m_Begin.m_Name elm.m_Begin.m_Offset elm.m_Begin.m_Attribs) ∧
      s'.m_ErrorInfo = s3.m_ErrorInfo ∧
      (s'.m_PriorWasEmptyTag = s3.m_PriorWasEmptyTag ∨
        (s'.m_PriorWasEmptyTag = true ∧ elm.m_End.m_Name = elm.m_Begin.m_Name))) ∧
    (b = false → nd = none ∧ s'.m_Stack = s3.m_Stack ∧ s'.m_ErrorInfo ≠ []) := by
  intro qm elm1 s3 b nd s' h
  unfold beginTagQuestion at h
  split at h
  · injection h with hp
    injection hp with hb hq
    injection hq with hn hs
    subst hb; subst hn; subst hs
    refine ⟨⟨rfl, rfl⟩, ?_, ?_⟩
    · intro hx; exact absurd hx (by decide)
    · intro hx; exact ⟨rfl, rfl, by simp⟩
  · split at h
    · have fr : FrameEq s3 (NextChar s3).2 := nextChar_frame s3
      obtain ⟨hio, ht, hf⟩ := beginTagSlash_spec _ _ _ _ _ h
      refine ⟨⟨hio.1.trans fr.1, hio.2.trans fr.2.2.2.2⟩, ?_, ?_⟩
      · intro hx
        rcases ht hx with ⟨elm, hst, hnd, herr, hbeg, hend, hflag⟩ | ⟨elm, hst, hnd, herr, hbeg, hend, hflag⟩
        · refine ⟨elm, ?_, hnd, herr.trans fr.2.2.2.1, Or.inr ⟨hflag, ?_⟩⟩
          · rw [hst, fr.2.1]
          · rw [hend, hbeg]
        · refine ⟨elm, ?_, hnd, herr.trans fr.2.2.2.1, Or.inr ⟨hflag, ?_⟩⟩
          · rw [hst, fr.2.1]
          · rw [hend, hbeg]
      · intro hx
        obtain ⟨hnd, hst, herr⟩ := hf hx
        exact ⟨hnd, hst.trans fr.2.1, herr⟩
    · obtain ⟨hio, ht, hf⟩ := beginTagSlash_spec _ _ _ _ _ h
      refine ⟨hio, ?_, hf⟩
      intro hx
      rcases ht hx with ⟨elm, hst, hnd, herr, hbeg, hend, hflag⟩ | ⟨elm, hst, hnd, herr, hbeg, hend, hflag⟩
      · exact ⟨elm, hst, hnd, herr, Or.inl hflag⟩
      · exact ⟨elm, hst, hnd, herr, Or.inr ⟨hflag, by rw [hend, hbeg]⟩⟩

theorem parseBeginTag_spec : ∀ fuel s b nd s', ParseBeginTagNode fuel s = some (b, nd, s') →
    (s'.input = s.input ∧ s'.ubEmptyStack = s.ubEmptyStack) ∧
    (b = true → ∃ elm, s'.m_Stack = elm :: s.m_Stack ∧
      nd = some (XmlNode.Begin elm.m_Begin.m_Name elm.m_Begin.m_Offset elm.m_Begin.m_Attribs) ∧
      s'.m_ErrorInfo = s.m_ErrorInfo ∧
      (s'.m_PriorWasEmptyTag = s.m_PriorWasEmptyTag ∨
        (s'.m_PriorWasEmptyTag = true ∧ elm.m_End.m_Name = elm.m_Begin.m_Name))) ∧
    (b = false → nd = none ∧ s'.m_Stack = s.m_Stack ∧ s'.m_ErrorInfo ≠ []) := by
  intro fuel s b nd s' h
  unfold ParseBeginTagNode at h
  simp only at h
  have f1 : FrameEq s (if s.m_CurChar = '?' then (NextChar s).2 else s) := by
    split
    · exact nextChar_frame s
    · exact frameEq_refl s
  split at h
  · exact absurd h (by simp)
  · rename_i ok s2 heq1
    have f2 : FrameEq s s2 := frameEq_trans f1 (nextToken_frame _ _ _ _ _ heq1)
    split at h
    · injection h with hp
      injection hp with hb hq
      injection hq with hn hs
      subst hb; subst hn; subst hs
      refine ⟨⟨f2.1, f2.2.2.2.2⟩, ?_, ?_⟩
      · intro hx; exact absurd hx (by decide)
      · intro hx; exact ⟨rfl, f2.2.1, by simp⟩
    · split at h
      · exact absurd h (by simp)
      · rename_i elm1 s3 heq2
        have f3 : FrameEq s s3 := frameEq_trans f2 (attribLoop_spec _ _ _ _ _ heq2).1
        obtain ⟨hio, ht, hf⟩ := beginTagQuestion_spec _ _ _ _ _ _ h
        refine ⟨⟨hio.1.trans f3.1, hio.2.trans f3.2.2.2.2⟩, ?_, ?_⟩
        · intro hx
          obtain ⟨elm, hst, hnd, herr, hflag⟩ := ht hx
          refine ⟨elm, ?_, hnd, herr.trans f3.2.2.2.1, ?_⟩
          · rw [hst, f3.2.1]
          · rcases hflag with hfl | hfl
            · exact Or.inl (hfl.trans f3.2.2.1)
            · exact Or.inr hfl
        · intro hx
          obtain ⟨hnd, hst, herr⟩ := hf hx
          exact ⟨hnd, hst.trans f3.2.1, herr⟩

/-- Invariant tying the self-closing flag to the stack: when the flag is
set, the stack top is the element the flag refers to, whose end-tag name
was filled in (with its begin name) by ParseBeginTagNode. -/
def ParserInv (s : ParserState) : Prop :=
  s.m_PriorWasEmptyTag = true →
    ∃ celm rest, s.m_Stack = celm :: rest ∧ celm.m_End.m_Name = celm.m_Begin.m_Name

/-- How one successful NextNode call relates the emitted node to the open
element names before (pre) and after (post) the call. -/
def StepShape (nd : Option XmlNode) (pre post : List (List Char)) : Prop :=
  (∃ n off ats, nd = some (XmlNode.Begin n off ats) ∧ post = n :: pre) ∨
  (∃ n v, nd = some (XmlNode.Value n v) ∧ post = pre) ∨
  (∃ n, nd = some (XmlNode.End n) ∧ pre = n :: post)

theorem parseTagValue_falseClean : ∀ fuel pfx s nd s',
    iswspaceW s.m_CurChar = false → s.m_CurChar ≠ '<' → IsWhiteSpace pfx = true →
    ParseTagValueNode fuel pfx s = some (false, nd, s') → s'.m_ErrorInfo = [] →
    nd = none ∧ s' = s ∧ s.m_Stack = [] ∧ s.m_CurChar = '\x00' := by
  intro fuel pfx s nd s' hws hlt hpfx h herr
  have hcc : s.m_CurChar = '\x00' := by
    by_contra hne
    -- the value loop consumes at least the current character, a non-space
    unfold ParseTagValueNode at h
    rw [valueLoop.eq_def] at h
    simp only at h
    rw [if_pos (by simp [hne, hlt])] at h
    cases fuel with
    | zero => exact absurd h (by simp)
    | succ f =>
      simp only at h
      cases hv : valueLoop f (pfx ++ [s.m_CurChar]) (NextChar s).2 with
      | none => rw [hv] at h; exact absurd h (by simp)
      | some r =>
        rw [hv] at h
        obtain ⟨token, s1⟩ := r
        obtain ⟨ext, hext⟩ := valueLoop_prefix _ _ _ _ _ hv
        have htokws : IsWhiteSpace token = false := by
          rw [hext]
          simp [IsWhiteSpace, List.all_append, hws]
        simp only at h
        split at h
        · rw [if_pos (by simp [htokws])] at h
          injection h with hp
          injection hp with hb hq
          injection hq with hn hs
          subst hs
          simp at herr
        · split at h
          · rename_i heq
            exact absurd heq (by assumption)
          · injection h with hp
            injection hp with hb hq
            exact absurd hb (by decide)
  -- with a NUL current character the loop does nothing
  unfold ParseTagValueNode at h
  rw [valueLoop.eq_def] at h
  simp only at h
  rw [if_neg (by simp [hcc])] at h
  simp only at h
  split at h
  · rename_i hstk
    split at h
    · injection h with hp
      injection hp with hb hq
      injection hq with hn hs
      subst hs
      rename_i hnw
      exact absurd hpfx (by simpa using hnw)
    · injection h with hp
      injection hp with hb hq
      injection hq with hn hs
      subst hn; subst hs
      exact ⟨rfl, rfl, hstk, hcc⟩
  · split at h
    · rename_i heq
      exact absurd heq (by assumption)
    · injection h with hp
      injection hp with hb hq
      exact absurd hb (by decide)

theorem stackNames_congr {s t : ParserState} (h : t.m_Stack = s.m_Stack) :
    stackNames t = stackNames s := by
  simp [stackNames, h]

theorem parserInv_transfer {s t : ParserState} (hstk : t.m_Stack = s.m_Stack)
    (hfl : t.m_PriorWasEmptyTag = s.m_PriorWasEmptyTag) (h : ParserInv s) : ParserInv t := by
  intro hx
  obtain ⟨c, r, he, hn⟩ := h (by rw [← hfl]; exact hx)
  exact ⟨c, r, by rw [hstk]; exact he, hn⟩

theorem notSynth_flagFalse {s : ParserState}
    (hcond : ¬ (s.m_PriorWasEmptyTag && decide (s.m_Stack ≠ [])) = true)
    (hinv : ParserInv s) : s.m_PriorWasEmptyTag = false := by
  by_cases hf : s.m_PriorWasEmptyTag = true
  · obtain ⟨c, r, he, _⟩ := hinv hf
    exact absurd (by simp [hf, he]) hcond
  · simpa using hf

set_option maxHeartbeats 2000000 in
theorem nextNode_master : ∀ fuel s b nd s', NextNode fuel s = some (b, nd, s') →
    (s'.input = s.input ∧ s'.ubEmptyStack = s.ubEmptyStack) ∧
    (s.m_ErrorInfo ≠ [] → s'.m_ErrorInfo ≠ []) ∧
    (b = false → s'.m_ErrorInfo = [] →
      nd = none ∧ s.m_Stack = [] ∧ s'.m_Stack = [] ∧ s'.m_CurChar = '\x00') ∧
    (b = true → s'.m_ErrorInfo = [] → ParserInv s →
      ParserInv s' ∧ StepShape nd (stackNames s) (stackNames s')) := by
  intro fuel
  induction fuel with
  | zero =>
    intro s b nd s' h
    rw [NextNode] at h
    unfold NextNodeF at h
    simp only at h
    split at h
    · rename_i hcond
      split at h
      · rename_i heq
        rw [heq] at hcond
        simp at hcond
      · rename_i celm rest heq
        injection h with hp
        injection hp with hb hq
        injection hq with hn hs
        subst hb; subst hn; subst hs
        refine ⟨⟨rfl, rfl⟩, fun hne => hne, ?_, ?_⟩
        · intro hx; exact absurd hx (by decide)
        · intro hx herr0 hinv
          have hfl : s.m_PriorWasEmptyTag = true := by
            revert hcond
            cases s.m_PriorWasEmptyTag <;> simp
          obtain ⟨c0, r0, he0, hend0⟩ := hinv hfl
          rw [heq] at he0
          injection he0 with hc0 hr0
          subst hc0
          refine ⟨fun hx2 => absurd hx2 (by simp), ?_⟩
          refine Or.inr (Or.inr ⟨celm.m_End.m_Name, rfl, ?_⟩)
          simp [stackNames, heq, hend0]
    · rename_i hcond
      cases hw : wsAccum 0 [] s with
      | none => rw [hw] at h; exact absurd h (by simp)
      | some r =>
        rw [hw] at h
        obtain ⟨token, s1⟩ := r
        simp only at h
        obtain ⟨fw, hwx, hwtok⟩ := wsAccum_spec _ _ _ _ _ hw
        split at h
        · rename_i hlt
          split at h
          · obtain ⟨hio, ht, hf⟩ := parseEndTag_spec _ _ _ _ _ h
            have f2 : FrameEq s (NextChar s1).2 := frameEq_trans fw (nextChar_frame s1)
            refine ⟨⟨hio.1.trans f2.1, hio.2.2.trans f2.2.2.2.2⟩, ?_, ?_, ?_⟩
            · intro hne
              cases b with
              | true =>
                obtain ⟨c, r2, _, _, _, herr⟩ := ht rfl
                rw [herr, f2.2.2.2.1]; exact hne
              | false => exact (hf rfl).2.2
            · intro hb herr0
              subst hb
              exact absurd herr0 (hf rfl).2.2
            · intro hb herr0 hinv
              obtain ⟨celm, rest, hst2, hst', hnd, herr⟩ := ht hb
              constructor
              · intro hfl'
                have hsf : s.m_PriorWasEmptyTag = true := by
                  rw [← f2.2.2.1, ← hio.2.1]; exact hfl'
                have hff := notSynth_flagFalse hcond hinv
                rw [hff] at hsf
                exact absurd hsf (by decide)
              · refine Or.inr (Or.inr ⟨celm.m_Begin.m_Name, hnd, ?_⟩)
                have hss : s.m_Stack = celm :: rest := by rw [← f2.2.1]; exact hst2
                simp [stackNames, hss, hst']
          · split at h
            · rename_i hbang
              split at h
              · cases hm : EatMarkedSection 0 (NextChar (NextChar (NextChar s1).2).2).2 with
                | none => rw [hm] at h; exact absurd h (by simp)
                | some rm =>
                  rw [hm] at h
                  obtain ⟨bm, u3⟩ := rm
                  simp only at h
                  have fpre : FrameEq s (NextChar (NextChar (NextChar s1).2).2).2 :=
                    frameEq_trans fw (frameEq_trans (nextChar_frame _)
                      (frameEq_trans (nextChar_frame _) (nextChar_frame _)))
                  obtain ⟨emcore, emt, emf⟩ := eatMarkedSection_spec _ _ _ _ hm
                  exact absurd h (by simp)
              · split at h
                · cases hm : EatComment 0 (NextChar (NextChar (NextChar (NextChar s1).2).2).2).2 with
                  | none => rw [hm] at h; exact absurd h (by simp)
                  | some rm =>
                    rw [hm] at h
                    obtain ⟨bm, u3⟩ := rm
                    simp only at h
                    have fpre : FrameEq s (NextChar (NextChar (NextChar (NextChar s1).2).2).2).2 :=
                      frameEq_trans fw (frameEq_trans (nextChar_frame _)
                        (frameEq_trans (nextChar_frame _)
                          (frameEq_trans (nextChar_frame _) (nextChar_frame _))))
                    obtain ⟨emcore, emt, emf⟩ := eatComment_spec _ _ _ _ hm
                    exact absurd h (by simp)
                · injection h with hp
                  injection hp with hb hq
                  injection hq with hn hs
                  subst hb; subst hn; subst hs
                  have fr : FrameEq s (NextChar (NextChar (NextChar s1).2).2).2 :=
                    frameEq_trans fw (frameEq_trans (nextChar_frame _)
                      (frameEq_trans (nextChar_frame _) (nextChar_frame _)))
                  refine ⟨⟨fr.1, fr.2.2.2.2⟩, ?_, ?_, ?_⟩
                  · intro hne; simp
                  · intro hx herr0; exact absurd herr0 (by simp)
                  · intro hx; exact absurd hx (by decide)
            · obtain ⟨hio, ht, hf⟩ := parseBeginTag_spec _ _ _ _ _ h
              have f2 : FrameEq s (NextChar s1).2 := frameEq_trans fw (nextChar_frame s1)
              refine ⟨⟨hio.1.trans f2.1, hio.2.trans f2.2.2.2.2⟩, ?_, ?_, ?_⟩
              · intro hne
                cases b with
                | true =>
                  obtain ⟨elm, _, _, herr, _⟩ := ht rfl
                  rw [herr, f2.2.2.2.1]; exact hne
                | false => exact (hf rfl).2.2
              · intro hb herr0
                subst hb
                exact absurd herr0 (hf rfl).2.2
              · intro hb herr0 hinv
                obtain ⟨elm, hst', hnd, herr, hflag⟩ := ht hb
                have hsfF : s.m_PriorWasEmptyTag = false := notSynth_flagFalse hcond hinv
                constructor
                · intro hfl'
                  rcases hflag with hfl | ⟨hfl, hend⟩
                  · rw [hfl, f2.2.2.1, hsfF] at hfl'
                    exact absurd hfl' (by decide)
                  · exact ⟨elm, (NextChar s1).2.m_Stack, hst', hend⟩
                · refine Or.inl ⟨elm.m_Begin.m_Name, elm.m_Begin.m_Offset, elm.m_Begin.m_Attribs, hnd, ?_⟩
                  have hx1 : stackNames s' = elm.m_Begin.m_Name :: stackNames (NextChar s1).2 := by
                    simp [stackNames, hst']
                  rw [hx1, stackNames_congr f2.2.1]
        · rename_i hlt
          obtain ⟨hio, ht, hf⟩ := parseTagValue_spec _ _ _ _ _ _ h
          refine ⟨⟨hio.1.trans fw.1, hio.2.2.trans fw.2.2.2.2⟩, ?_, ?_, ?_⟩
          · intro hne
            cases b with
            | true =>
              obtain ⟨c, r2, tok, _, _, _, herr⟩ := ht rfl
              rw [herr, fw.2.2.2.1]; exact hne
            | false =>
              obtain ⟨_, _, herr⟩ := hf rfl
              rcases herr with herr | herr
              · rw [herr, fw.2.2.2.1]; exact hne
              · exact herr
          · intro hb herr0
            subst hb
            obtain ⟨hnd, hs'eq, hstk1, hcc⟩ :=
              parseTagValue_falseClean _ _ _ _ _ hwx hlt (hwtok rfl) h herr0
            refine ⟨hnd, ?_, ?_, ?_⟩
            · rw [← fw.2.1]; exact hstk1
            · rw [hs'eq]; exact hstk1
            · rw [hs'eq]; exact hcc
          · intro hb herr0 hinv
            obtain ⟨celm, rest, tok, hst1, hst', hnd, herr⟩ := ht hb
            constructor
            · intro hfl'
              have hsf : s.m_PriorWasEmptyTag = true := by
                rw [← fw.2.2.1, ← hio.2.1]; exact hfl'
              have hff := notSynth_flagFalse hcond hinv
              rw [hff] at hsf
              exact absurd hsf (by decide)
            · refine Or.inr (Or.inl ⟨celm.m_Begin.m_Name, tok, hnd, ?_⟩)
              have hss : s.m_Stack = celm :: rest := by rw [← fw.2.1]; exact hst1
              simp [stackNames, hss, hst']
  | succ f ih =>
    intro s b nd s' h
    rw [NextNode] at h
    unfold NextNodeF at h
    simp only at h
    split at h
    · rename_i hcond
      split at h
      · rename_i heq
        rw [heq] at hcond
        simp at hcond
      · rename_i celm rest heq
        injection h with hp
        injection hp with hb hq
        injection hq with hn hs
        subst hb; subst hn; subst hs
        refine ⟨⟨rfl, rfl⟩, fun hne => hne, ?_, ?_⟩
        · intro hx; exact absurd hx (by decide)
        · intro hx herr0 hinv
          have hfl : s.m_PriorWasEmptyTag = true := by
            revert hcond
            cases s.m_PriorWasEmptyTag <;> simp
          obtain ⟨c0, r0, he0, hend0⟩ := hinv hfl
          rw [heq] at he0
          injection he0 with hc0 hr0
          subst hc0
          refine ⟨fun hx2 => absurd hx2 (by simp), ?_⟩
          refine Or.inr (Or.inr ⟨celm.m_End.m_Name, rfl, ?_⟩)
          simp [stackNames, heq, hend0]
    · rename_i hcond
      cases hw : wsAccum (f + 1) [] s with
      | none => rw [hw] at h; exact absurd h (by simp)
      | some r =>
        rw [hw] at h
        obtain ⟨token, s1⟩ := r
        simp only at h
        obtain ⟨fw, hwx, hwtok⟩ := wsAccum_spec _ _ _ _ _ hw
        split at h
        · rename_i hlt
          split at h
          · obtain ⟨hio, ht, hf⟩ := parseEndTag_spec _ _ _ _ _ h
            have f2 : FrameEq s (NextChar s1).2 := frameEq_trans fw (nextChar_frame s1)
            refine ⟨⟨hio.1.trans f2.1, hio.2.2.trans f2.2.2.2.2⟩, ?_, ?_, ?_⟩
            · intro hne
              cases b with
              | true =>
                obtain ⟨c, r2, _, _, _, herr⟩ := ht rfl
                rw [herr, f2.2.2.2.1]; exact hne
              | false => exact (hf rfl).2.2
            · intro hb herr0
              subst hb
              exact absurd herr0 (hf rfl).2.2
            · intro hb herr0 hinv
              obtain ⟨celm, rest, hst2, hst', hnd, herr⟩ := ht hb
              constructor
              · intro hfl'
                have hsf : s.m_PriorWasEmptyTag = true := by
                  rw [← f2.2.2.1, ← hio.2.1]; exact hfl'
                have hff := notSynth_flagFalse hcond hinv
                rw [hff] at hsf
                exact absurd hsf (by decide)
              · refine Or.inr (Or.inr ⟨celm.m_Begin.m_Name, hnd, ?_⟩)
                have hss : s.m_Stack = celm :: rest := by rw [← f2.2.1]; exact hst2
                simp [stackNames, hss, hst']
          · split at h
            · rename_i hbang
              split at h
              · cases hm : EatMarkedSection (f + 1) (NextChar (NextChar (NextChar s1).2).2).2 with
                | none => rw [hm] at h; exact absurd h (by simp)
                | some rm =>
                  rw [hm] at h
                  obtain ⟨bm, u3⟩ := rm
                  simp only at h
                  have fpre : FrameEq s (NextChar (NextChar (NextChar s1).2).2).2 :=
                    frameEq_trans fw (frameEq_trans (nextChar_frame _)
                      (frameEq_trans (nextChar_frame _) (nextChar_frame _)))
                  obtain ⟨emcore, emt, emf⟩ := eatMarkedSection_spec _ _ _ _ hm
                  obtain ⟨ihcore, ihpers, ihfc, ihstep⟩ := ih u3 b nd s' h
                  have hcore_u3 : CoreEq s u3 := coreEq_trans (frameEq_coreEq fpre) emcore
                  refine ⟨⟨ihcore.1.trans hcore_u3.1, ihcore.2.trans hcore_u3.2.2.2⟩, ?_, ?_, ?_⟩
                  · intro hne
                    apply ihpers
                    cases bm with
                    | true => rw [emt rfl, fpre.2.2.2.1]; exact hne
                    | false => rw [emf rfl]; simp
                  · intro hb herr0
                    obtain ⟨hnd, hu3stk, hs'stk, hcc⟩ := ihfc hb herr0
                    refine ⟨hnd, ?_, hs'stk, hcc⟩
                    rw [← hcore_u3.2.1]; exact hu3stk
                  · intro hb herr0 hinv
                    have hinv3 : ParserInv u3 := parserInv_transfer hcore_u3.2.1 hcore_u3.2.2.1 hinv
                    obtain ⟨hinv', hshape⟩ := ihstep hb herr0 hinv3
                    refine ⟨hinv', ?_⟩
                    rw [← stackNames_congr hcore_u3.2.1]
                    exact hshape
              · split at h
                · cases hm : EatComment (f + 1) (NextChar (NextChar (NextChar (NextChar s1).2).2).2).2 with
                  | none => rw [hm] at h; exact absurd h (by simp)
                  | some rm =>
                    rw [hm] at h
                    obtain ⟨bm, u3⟩ := rm
                    simp only at h
                    have fpre : FrameEq s (NextChar (NextChar (NextChar (NextChar s1).2).2).2).2 :=
                      frameEq_trans fw (frameEq_trans (nextChar_frame _)
                        (frameEq_trans (nextChar_frame _)
                          (frameEq_trans (nextChar_frame _) (nextChar_frame _))))
                    obtain ⟨emcore, emt, emf⟩ := eatComment_spec _ _ _ _ hm
                    obtain ⟨ihcore, ihpers, ihfc, ihstep⟩ := ih u3 b nd s' h
                    have hcore_u3 : CoreEq s u3 := coreEq_trans (frameEq_coreEq fpre) emcore
                    refine ⟨⟨ihcore.1.trans hcore_u3.1, ihcore.2.trans hcore_u3.2.2.2⟩, ?_, ?_, ?_⟩
                    · intro hne
                      apply ihpers
                      cases bm with
                      | true => rw [emt rfl, fpre.2.2.2.1]; exact hne
                      | false => rw [emf rfl]; simp
                    · intro hb herr0
                      obtain ⟨hnd, hu3stk, hs'stk, hcc⟩ := ihfc hb herr0
                      refine ⟨hnd, ?_, hs'stk, hcc⟩
                      rw [← hcore_u3.2.1]; exact hu3stk
                    · intro hb herr0 hinv
                      have hinv3 : ParserInv u3 := parserInv_transfer hcore_u3.2.1 hcore_u3.2.2.1 hinv
                      obtain ⟨hinv', hshape⟩ := ihstep hb herr0 hinv3
                      refine ⟨hinv', ?_⟩
                      rw [← stackNames_congr hcore_u3.2.1]
                      exact hshape
                · injection h with hp
                  injection hp with hb hq
                  injection hq with hn hs
                  subst hb; subst hn; subst hs
                  have fr : FrameEq s (NextChar (NextChar (NextChar s1).2).2).2 :=
                    frameEq_trans fw (frameEq_trans (nextChar_frame _)
                      (frameEq_trans (nextChar_frame _) (nextChar_frame _)))
                  refine ⟨⟨fr.1, fr.2.2.2.2⟩, ?_, ?_, ?_⟩
                  · intro hne; simp
                  · intro hx herr0; exact absurd herr0 (by simp)
                  · intro hx; exact absurd hx (by decide)
            · obtain ⟨hio, ht, hf⟩ := parseBeginTag_spec _ _ _ _ _ h
              have f2 : FrameEq s (NextChar s1).2 := frameEq_trans fw (nextChar_frame s1)
              refine ⟨⟨hio.1.trans f2.1, hio.2.trans f2.2.2.2.2⟩, ?_, ?_, ?_⟩
              · intro hne
                cases b with
                | true =>
                  obtain ⟨elm, _, _, herr, _⟩ := ht rfl
                  rw [herr, f2.2.2.2.1]; exact hne
                | false => exact (hf rfl).2.2
              · intro hb herr0
                subst hb
                exact absurd herr0 (hf rfl).2.2
              · intro hb herr0 hinv
                obtain ⟨elm, hst', hnd, herr, hflag⟩ := ht hb
                have hsfF : s.m_PriorWasEmptyTag = false := notSynth_flagFalse hcond hinv
                constructor
                · intro hfl'
                  rcases hflag with hfl | ⟨hfl, hend⟩
                  · rw [hfl, f2.2.2.1, hsfF] at hfl'
                    exact absurd hfl' (by decide)
                  · exact ⟨elm, (NextChar s1).2.m_Stack, hst', hend⟩
                · refine Or.inl ⟨elm.m_Begin.m_Name, elm.m_Begin.m_Offset, elm.m_Begin.m_Attribs, hnd, ?_⟩
                  have hx1 : stackNames s' = elm.m_Begin.m_Name :: stackNames (NextChar s1).2 := by
                    simp [stackNames, hst']
                  rw [hx1, stackNames_congr f2.2.1]
        · rename_i hlt
          obtain ⟨hio, ht, hf⟩ := parseTagValue_spec _ _ _ _ _ _ h
          refine ⟨⟨hio.1.trans fw.1, hio.2.2.trans fw.2.2.2.2⟩, ?_, ?_, ?_⟩
          · intro hne
            cases b with
            | true =>
              obtain ⟨c, r2, tok, _, _, _, herr⟩ := ht rfl
              rw [herr, fw.2.2.2.1]; exact hne
            | false =>
              obtain ⟨_, _, herr⟩ := hf rfl
              rcases herr with herr | herr
              · rw [herr, fw.2.2.2.1]; exact hne
              · exact herr
          · intro hb herr0
            subst hb
            obtain ⟨hnd, hs'eq, hstk1, hcc⟩ :=
              parseTagValue_falseClean _ _ _ _ _ hwx hlt (hwtok rfl) h herr0
            refine ⟨hnd, ?_, ?_, ?_⟩
            · rw [← fw.2.1]; exact hstk1
            · rw [hs'eq]; exact hstk1
            · rw [hs'eq]; exact hcc
          · intro hb herr0 hinv
            obtain ⟨celm, rest, tok, hst1, hst', hnd, herr⟩ := ht hb
            constructor
            · intro hfl'
              have hsf : s.m_PriorWasEmptyTag = true := by
                rw [← fw.2.2.1, ← hio.2.1]; exact hfl'
              have hff := notSynth_flagFalse hcond hinv
              rw [hff] at hsf
              exact absurd hsf (by decide)
            · refine Or.inr (Or.inl ⟨celm.m_Begin.m_Name, tok, hnd, ?_⟩)
              have hss : s.m_Stack = celm :: rest := by rw [← fw.2.1]; exact hst1
              simp [stackNames, hss, hst']

theorem run_err_persist : ∀ steps fuel s tr sF, run fuel steps s = some (tr, sF) →
    s.m_ErrorInfo ≠ [] → sF.m_ErrorInfo ≠ [] := by
  intro steps
  induction steps with
  | zero =>
    intro fuel s tr sF h
    exact absurd h (by simp [run])
  | succ k ih =>
    intro fuel s tr sF h hne
    rw [run] at h
    cases hn : NextNode fuel s with
    | none => rw [hn] at h; exact absurd h (by simp)
    | some r =>
      rw [hn] at h
      obtain ⟨b, nd, s'⟩ := r
      have hpers := (nextNode_master _ _ _ _ _ hn).2.1 hne
      cases b with
      | false =>
        simp only at h
        injection h with hp
        injection hp with _ hs
        subst hs
        exact hpers
      | true =>
        simp only at h
        cases hrun : run fuel k s' with
        | none => rw [hrun] at h; exact absurd h (by simp)
        | some q =>
          rw [hrun] at h
          obtain ⟨tr', sF'⟩ := q
          injection h with hp
          injection hp with _ hs
          subst hs
          exact ih _ _ _ _ hrun hpers

theorem run_nesting : ∀ steps fuel s tr sF, run fuel steps s = some (tr, sF) →
    sF.m_ErrorInfo = [] → ParserInv s → nestingOk tr (stackNames s) = true := by
  intro steps
  induction steps with
  | zero =>
    intro fuel s tr sF h
    exact absurd h (by simp [run])
  | succ k ih =>
    intro fuel s tr sF h herr hinv
    rw [run] at h
    cases hn : NextNode fuel s with
    | none => rw [hn] at h; exact absurd h (by simp)
    | some r =>
      rw [hn] at h
      obtain ⟨b, nd, s'⟩ := r
      cases b with
      | false =>
        simp only at h
        injection h with hp
        injection hp with htr hs
        subst hs
        obtain ⟨_, hstk, _, _⟩ := (nextNode_master _ _ _ _ _ hn).2.2.1 rfl herr
        rw [← htr]
        simp [nestingOk, stackNames, hstk]
      | true =>
        simp only at h
        cases hrun : run fuel k s' with
        | none => rw [hrun] at h; exact absurd h (by simp)
        | some q =>
          rw [hrun] at h
          obtain ⟨tr', sF'⟩ := q
          injection h with hp
          injection hp with htr hs
          subst hs
          have hs'err : s'.m_ErrorInfo = [] := by
            by_cases hc : s'.m_ErrorInfo = []
            · exact hc
            · exact absurd herr (run_err_persist _ _ _ _ _ hrun hc)
          obtain ⟨hinv', hshape⟩ := (nextNode_master _ _ _ _ _ hn).2.2.2 rfl hs'err hinv
          have hrec := ih _ _ _ _ hrun herr hinv'
          rw [← htr]
          rcases hshape with ⟨n, off, ats, hnd, hpost⟩ | ⟨n, v, hnd, hpost⟩ | ⟨n, hnd, hpre⟩
          · rw [hnd]
            simp only [Option.toList, List.cons_append, List.nil_append, nestingOk]
            rw [← hpost]
            exact hrec
          · rw [hnd]
            simp only [Option.toList, List.cons_append, List.nil_append, nestingOk]
            rw [← hpost]
            exact hrec
          · rw [hnd, hpre]
            simp only [Option.toList, List.cons_append, List.nil_append, nestingOk]
            simp [hrec]

theorem run_last {fuel steps : Nat} {s : ParserState} {r : Option XmlNode} {s' : ParserState}
    (h : NextNode fuel s = some (false, r, s')) :
    run fuel (steps + 1) s = some ([], s') := by
  rw [run, h]

theorem run_cons {fuel steps : Nat} {s : ParserState} {nd : Option XmlNode}
    {s' : ParserState} {tr : List XmlNode} {sF : ParserState}
    (h : NextNode fuel s = some (true, nd, s'))
    (hrest : run fuel steps s' = some (tr, sF)) :
    run fuel (steps + 1) s = some (nd.toList ++ tr, sF) := by
  rw [run, h]
  simp only
  rw [hrest]

theorem beginParsingFromMemory_init (doc : List Char) :
    (BeginParsingFromMemory doc).2.m_Stack = [] ∧
    (BeginParsingFromMemory doc).2.m_PriorWasEmptyTag = false := by
  have fr := nextChar_frame { freshState doc with m_DataSize := doc.length }
  unfold BeginParsingFromMemory
  simp only
  split
  · exact ⟨fr.2.1.trans (by rfl), fr.2.2.1.trans (by rfl)⟩
  · exact ⟨fr.2.1.trans (by rfl), fr.2.2.1.trans (by rfl)⟩

/-- Parser state c1cexS0 of a concrete session (computed from the definitions above). -/
def c1cexS0 : ParserState :=
  { input := ['<', 'a', '>', '<', '/', 'a', '>', '<', 'b', '>', '<', '/', 'b', '>'],
    m_ReaderPos := 1,
    m_DataSize := 14,
    m_DataPos := 1,
    m_CurChar := '<',
    m_CurToken := [],
    m_Stack := [],
    m_PriorWasEmptyTag := false,
    m_ErrorInfo := [],
    ubEmptyStack := false }

/-- Parser state c1cexS1 of a concrete session (computed from the definitions above). -/
def c1cexS1 : ParserState :=
  { input := ['<', 'a', '>', '<', '/', 'a', '>', '<', 'b', '>', '<', '/', 'b', '>'],
    m_ReaderPos := 4,
    m_DataSize := 14,
    m_DataPos := 4,
    m_CurChar := '<',
    m_CurToken := ['a'],
    m_Stack := [{ m_Begin := { m_Name := ['a'], m_Offset := 0, m_Attribs := [] },
                  m_Value := { m_Name := [], m_Value := [] },
                  m_End := { m_Name := [] } }],
    m_PriorWasEmptyTag := false,
    m_ErrorInfo := [],
    ubEmptyStack := false }

/-- Parser state c1cexS2 of a concrete session (computed from the definitions above). -/
def c1cexS2 : ParserState :=
  { input := ['<', 'a', '>', '<', '/', 'a', '>', '<', 'b', '>', '<', '/', 'b', '>'],
    m_ReaderPos := 8,
    m_DataSize := 14,
    m_DataPos := 8,
    m_CurChar := '<',
    m_CurToken := ['a'],
    m_Stack := [],
    m_PriorWasEmptyTag := false,
    m_ErrorInfo := [],
    ubEmptyStack := false }

/-- Parser state c1cexS3 of a concrete session (computed from the definitions above). -/
def c1cexS3 : ParserState :=
  { input := ['<', 'a', '>', '<', '/', 'a', '>', '<', 'b', '>', '<', '/', 'b', '>'],
    m_ReaderPos := 11,
    m_DataSize := 14,
    m_DataPos := 11,
    m_CurChar := '<',
    m_CurToken := ['b'],
    m_Stack := [{ m_Begin := { m_Name := ['b'], m_Offset := 7, m_Attribs := [] },
                  m_Value := { m_Name := [], m_Value := [] },
                  m_End := { m_Name := [] } }],
    m_PriorWasEmptyTag := false,
    m_ErrorInfo := [],
    ubEmptyStack := false }

/-- Parser state c1cexS4 of a concrete session (computed from the definitions above). -/
def c1cexS4 : ParserState :=
  { input := ['<', 'a', '>', '<', '/', 'a', '>', '<', 'b', '>', '<', '/', 'b', '>'],
    m_ReaderPos := 14,
    m_DataSize := 14,
    m_DataPos := 14,
    m_CurChar := '\x00',
    m_CurToken := ['b'],
    m_Stack := [],
    m_PriorWasEmptyTag := false,
    m_ErrorInfo := [],
    ubEmptyStack := false }

/-- Parser state c1cexS5 of a concrete session (computed from the definitions above). -/
def c1cexS5 : ParserState :=
  { input := ['<', 'a', '>', '<', '/', 'a', '>', '<', 'b', '>', '<', '/', 'b', '>'],
    m_ReaderPos := 14,
    m_DataSize := 14,
    m_DataPos := 14,
    m_CurChar := '\x00',
    m_CurToken := ['b'],
    m_Stack := [],
    m_PriorWasEmptyTag := false,
    m_ErrorInfo := [],
    ubEmptyStack := false }

/-- Parser state c1wS0 of a concrete session (computed from the definitions above). -/
def c1wS0 : ParserState :=
  { input := ['<', 'a', '>', '<', 'b', '>', '<', '/', 'b', '>', '<', '/', 'a', '>'],
    m_ReaderPos := 1,
    m_DataSize := 14,
    m_DataPos := 1,
    m_CurChar := '<',
    m_CurToken := [],
    m_Stack := [],
    m_PriorWasEmptyTag := false,
    m_ErrorInfo := [],
    ubEmptyStack := false }

/-- Parser state c1wS1 of a concrete session (computed from the definitions above). -/
def c1wS1 : ParserState :=
  { input := ['<', 'a', '>', '<', 'b', '>', '<', '/', 'b', '>', '<', '/', 'a', '>'],
    m_ReaderPos := 4,
    m_DataSize := 14,
    m_DataPos := 4,
    m_CurChar := '<',
    m_CurToken := ['a'],
    m_Stack := [{ m_Begin := { m_Name := ['a'], m_Offset := 0, m_Attribs := [] },
                  m_Value := { m_Name := [], m_Value := [] },
                  m_End := { m_Name := [] } }],
    m_PriorWasEmptyTag := false,
    m_ErrorInfo := [],
    ubEmptyStack := false }

/-- Parser state c1wS2 of a concrete session (computed from the definitions above). -/
def c1wS2 : ParserState :=
  { input := ['<', 'a', '>', '<', 'b', '>', '<', '/', 'b', '>', '<', '/', 'a', '>'],
    m_ReaderPos := 7,
    m_DataSize := 14,
    m_DataPos := 7,
    m_CurChar := '<',
    m_CurToken := ['b'],
    m_Stack := [{ m_Begin := { m_Name := ['b'], m_Offset := 3, m_Attribs := [] },
                  m_Value := { m_Name := [], m_Value := [] },
                  m_End := { m_Name := [] } },
                { m_Begin := { m_Name := ['a'], m_Offset := 0, m_Attribs := [] },
                  m_Value := { m_Name := [], m_Value := [] },
                  m_End := { m_Name := [] } }],
    m_PriorWasEmptyTag := false,
    m_ErrorInfo := [],
    ubEmptyStack := false }

/-- Parser state c1wS3 of a concrete session (computed from the definitions above). -/
def c1wS3 : ParserState :=
  { input := ['<', 'a', '>', '<', 'b', '>', '<', '/', 'b', '>', '<', '/', 'a', '>'],
    m_ReaderPos := 11,
    m_DataSize := 14,
    m_DataPos := 11,
    m_CurChar := '<',
    m_CurToken := ['b'],
    m_Stack := [{ m_Begin := { m_Name := ['a'], m_Offset := 0, m_Attribs := [] },
                  m_Value := { m_Name := [], m_Value := [] },
                  m_End := { m_Name := [] } }],
    m_PriorWasEmptyTag := false,
    m_ErrorInfo := [],
    ubEmptyStack := false }

/-- Parser state c1wS4 of a concrete session (computed from the definitions above). -/
def c1wS4 : ParserState :=
  { input := ['<', 'a', '>', '<', 'b', '>', '<', '/', 'b', '>', '<', '/', 'a', '>'],
    m_ReaderPos := 14,
    m_DataSize := 14,
    m_DataPos := 14,
    m_CurChar := '\x00',
    m_CurToken := ['a'],
    m_Stack := [],
    m_PriorWasEmptyTag := false,
    m_ErrorInfo := [],
    ubEmptyStack := false }

/-- Parser state c1wS5 of a concrete session (computed from the definitions above). -/
def c1wS5 : ParserState :=
  { input := ['<', 'a', '>', '<', 'b', '>', '<', '/', 'b', '>', '<', '/', 'a', '>'],
    m_ReaderPos := 14,
    m_DataSize := 14,
    m_DataPos := 14,
    m_CurChar := '\x00',
    m_CurToken := ['a'],
    m_Stack := [],
    m_PriorWasEmptyTag := false,
    m_ErrorInfo := [],
    ubEmptyStack := false }

/-- Parser state c2S0 of a concrete session (computed from the definitions above). -/
def c2S0 : ParserState :=
  { input := ['<', 'a', '>'],
    m_ReaderPos := 1,
    m_DataSize := 3,
    m_DataPos := 1,
    m_CurChar := '<',
    m_CurToken := [],
    m_Stack := [],
    m_PriorWasEmptyTag := false,
    m_ErrorInfo := [],
    ubEmptyStack := false }

/-- Parser state c2S1 of a concrete session (computed from the definitions above). -/
def c2S1 : ParserState :=
  { input := ['<', 'a', '>'],
    m_ReaderPos := 3,
    m_DataSize := 3,
    m_DataPos := 3,
    m_CurChar := '\x00',
    m_CurToken := ['a'],
    m_Stack := [{ m_Begin := { m_Name := ['a'], m_Offset := 0, m_Attribs := [] },
                  m_Value := { m_Name := [], m_Value := [] },
                  m_End := { m_Name := [] } }],
    m_PriorWasEmptyTag := false,
    m_ErrorInfo := [],
    ubEmptyStack := false }

/-- Parser state c2S2 of a concrete session (computed from the definitions above). -/
def c2S2 : ParserState :=
  { input := ['<', 'a', '>'],
    m_ReaderPos := 3,
    m_DataSize := 3,
    m_DataPos := 3,
    m_CurChar := '\x00',
    m_CurToken := ['a'],
    m_Stack := [{ m_Begin := { m_Name := ['a'], m_Offset := 0, m_Attribs := [] },
                  m_Value := { m_Name := ['a'], m_Value := [] },
                  m_End := { m_Name := [] } }],
    m_PriorWasEmptyTag := false,
    m_ErrorInfo := [],
    ubEmptyStack := false }

/-- Parser state c3cexS0 of a concrete session (computed from the definitions above). -/
def c3cexS0 : ParserState :=
  { input := ['x', '<', 'a', '/', '>'],
    m_ReaderPos := 1,
    m_DataSize := 5,
    m_DataPos := 1,
    m_CurChar := 'x',
    m_CurToken := [],
    m_Stack := [],
    m_PriorWasEmptyTag := false,
    m_ErrorInfo := [],
    ubEmptyStack := false }

/-- Parser state c3cexS1 of a concrete session (computed from the definitions above). -/
def c3cexS1 : ParserState :=
  { input := ['x', '<', 'a', '/', '>'],
    m_ReaderPos := 2,
    m_DataSize := 5,
    m_DataPos := 2,
    m_CurChar := '<',
    m_CurToken := [],
    m_Stack := [],
    m_PriorWasEmptyTag := false,
    m_ErrorInfo := ("Unexpected data outside of all tags:  'x'").toList,
    ubEmptyStack := false }

/-- Parser state c3cexS2 of a concrete session (computed from the definitions above). -/
def c3cexS2 : ParserState :=
  { input := ['x', '<', 'a', '/', '>'],
    m_ReaderPos := 5,
    m_DataSize := 5,
    m_DataPos := 5,
    m_CurChar := '\x00',
    m_CurToken := ['a'],
    m_Stack := [{ m_Begin := { m_Name := ['a'], m_Offset := 1, m_Attribs := [] },
                  m_Value := { m_Name := [], m_Value := [] },
                  m_End := { m_Name := ['a'] } }],
    m_PriorWasEmptyTag := true,
    m_ErrorInfo := ("Unexpected data outside of all tags:  'x'").toList,
    ubEmptyStack := false }

/-- Parser state c3wS0 of a concrete session (computed from the definitions above). -/
def c3wS0 : ParserState :=
  { input := [' '],
    m_ReaderPos := 1,
    m_DataSize := 1,
    m_DataPos := 1,
    m_CurChar := ' ',
    m_CurToken := [],
    m_Stack := [],
    m_PriorWasEmptyTag := false,
    m_ErrorInfo := [],
    ubEmptyStack := false }

/-- Parser state c3wS1 of a concrete session (computed from the definitions above). -/
def c3wS1 : ParserState :=
  { input := [' '],
    m_ReaderPos := 1,
    m_DataSize := 1,
    m_DataPos := 1,
    m_CurChar := '\x00',
    m_CurToken := [],
    m_Stack := [],
    m_PriorWasEmptyTag := false,
    m_ErrorInfo := [],
    ubEmptyStack := false }

/-- Parser state c5S0 of a concrete session (computed from the definitions above). -/
def c5S0 : ParserState :=
  { input := ['<', 'a', '/', '>'],
    m_ReaderPos := 1,
    m_DataSize := 4,
    m_DataPos := 1,
    m_CurChar := '<',
    m_CurToken := [],
    m_Stack := [],
    m_PriorWasEmptyTag := false,
    m_ErrorInfo := [],
    ubEmptyStack := false }

/-- Parser state c5S1 of a concrete session (computed from the definitions above). -/
def c5S1 : ParserState :=
  { input := ['<', 'a', '/', '>'],
    m_ReaderPos := 4,
    m_DataSize := 4,
    m_DataPos := 4,
    m_CurChar := '\x00',
    m_CurToken := ['a'],
    m_Stack := [{ m_Begin := { m_Name := ['a'], m_Offset := 0, m_Attribs := [] },
                  m_Value := { m_Name := [], m_Value := [] },
                  m_End := { m_Name := ['a'] } }],
    m_PriorWasEmptyTag := true,
    m_ErrorInfo := [],
    ubEmptyStack := false }

/-- Parser state c5S2 of a concrete session (computed from the definitions above). -/
def c5S2 : ParserState :=
  { input := ['<', 'a', '/', '>'],
    m_ReaderPos := 4,
    m_DataSize := 4,
    m_DataPos := 4,
    m_CurChar := '\x00',
    m_CurToken := ['a'],
    m_Stack := [],
    m_PriorWasEmptyTag := false,
    m_ErrorInfo := [],
    ubEmptyStack := false }

/-- Parser state c6S0 of a concrete session (computed from the definitions above). -/
def c6S0 : ParserState :=
  { input := ['<', 'n', 'o', 't', 'e', '>', '<', 't', 'o', '>', 'M', 'a', 'r', 'y', '<', '/', 't', 'o', '>', '<',
              '/', 'n', 'o', 't', 'e', '>'],
    m_ReaderPos := 1,
    m_DataSize := 26,
    m_DataPos := 1,
    m_CurChar := '<',
    m_CurToken := [],
    m_Stack := [],
    m_PriorWasEmptyTag := false,
    m_ErrorInfo := [],
    ubEmptyStack := false }

/-- Parser state c6S1 of a concrete session (computed from the definitions above). -/
def c6S1 : ParserState :=
  { input := ['<', 'n', 'o', 't', 'e', '>', '<', 't', 'o', '>', 'M', 'a', 'r', 'y', '<', '/', 't', 'o', '>', '<',
              '/', 'n', 'o', 't', 'e', '>'],
    m_ReaderPos := 7,
    m_DataSize := 26,
    m_DataPos := 7,
    m_CurChar := '<',
    m_CurToken := ['n', 'o', 't', 'e'],
    m_Stack := [{ m_Begin := { m_Name := ['n', 'o', 't', 'e'], m_Offset := 0, m_Attribs := [] },
                  m_Value := { m_Name := [], m_Value := [] },
                  m_End := { m_Name := [] } }],
    m_PriorWasEmptyTag := false,
    m_ErrorInfo := [],
    ubEmptyStack := false }

/-- Parser state c6S2 of a concrete session (computed from the definitions above). -/
def c6S2 : ParserState :=
  { input := ['<', 'n', 'o', 't', 'e', '>', '<', 't', 'o', '>', 'M', 'a', 'r', 'y', '<', '/', 't', 'o', '>', '<',
              '/', 'n', 'o', 't', 'e', '>'],
    m_ReaderPos := 11,
    m_DataSize := 26,
    m_DataPos := 11,
    m_CurChar := 'M',
    m_CurToken := ['t', 'o'],
    m_Stack := [{ m_Begin := { m_Name := ['t', 'o'], m_Offset := 6, m_Attribs := [] },
                  m_Value := { m_Name := [], m_Value := [] },
                  m_End := { m_Name := [] } },
                { m_Begin := { m_Name := ['n', 'o', 't', 'e'], m_Offset := 0, m_Attribs := [] },
                  m_Value := { m_Name := [], m_Value := [] },
                  m_End := { m_Name := [] } }],
    m_PriorWasEmptyTag := false,
    m_ErrorInfo := [],
    ubEmptyStack := false }

/-- Parser state c6S3 of a concrete session (computed from the definitions above). -/
def c6S3 : ParserState :=
  { input := ['<', 'n', 'o', 't', 'e', '>', '<', 't', 'o', '>', 'M', 'a', 'r', 'y', '<', '/', 't', 'o', '>', '<',
              '/', 'n', 'o', 't', 'e', '>'],
    m_ReaderPos := 15,
    m_DataSize := 26,
    m_DataPos := 15,
    m_CurChar := '<',
    m_CurToken := ['t', 'o'],
    m_Stack := [{ m_Begin := { m_Name := ['t', 'o'], m_Offset := 6, m_Attribs := [] },
                  m_Value := { m_Name := ['t', 'o'], m_Value := ['M', 'a', 'r', 'y'] },
                  m_End := { m_Name := [] } },
                { m_Begin := { m_Name := ['n', 'o', 't', 'e'], m_Offset := 0, m_Attribs := [] },
                  m_Value := { m_Name := [], m_Value := [] },
                  m_End := { m_Name := [] } }],
    m_PriorWasEmptyTag := false,
    m_ErrorInfo := [],
    ubEmptyStack := false }

/-- Parser state c6S4 of a concrete session (computed from the definitions above). -/
def c6S4 : ParserState :=
  { input := ['<', 'n', 'o', 't', 'e', '>', '<', 't', 'o', '>', 'M', 'a', 'r', 'y', '<', '/', 't', 'o', '>', '<',
              '/', 'n', 'o', 't', 'e', '>'],
    m_ReaderPos := 20,
    m_DataSize := 26,
    m_DataPos := 20,
    m_CurChar := '<',
    m_CurToken := ['t', 'o'],
    m_Stack := [{ m_Begin := { m_Name := ['n', 'o', 't', 'e'], m_Offset := 0, m_Attribs := [] },
                  m_Value := { m_Name := [], m_Value := [] },
                  m_End := { m_Name := [] } }],
    m_PriorWasEmptyTag := false,
    m_ErrorInfo := [],
    ubEmptyStack := false }

/-- Parser state c6S5 of a concrete session (computed from the definitions above). -/
def c6S5 : ParserState :=
  { input := ['<', 'n', 'o', 't', 'e', '>', '<', 't', 'o', '>', 'M', 'a', 'r', 'y', '<', '/', 't', 'o', '>', '<',
              '/', 'n', 'o', 't', 'e', '>'],
    m_ReaderPos := 26,
    m_DataSize := 26,
    m_DataPos := 26,
    m_CurChar := '\x00',
    m_CurToken := ['n', 'o', 't', 'e'],
    m_Stack := [],
    m_PriorWasEmptyTag := false,
    m_ErrorInfo := [],
    ubEmptyStack := false }

/-- Parser state c7cS0 of a concrete session (computed from the definitions above). -/
def c7cS0 : ParserState :=
  { input := ['<', '!', '-', '-', 'x', '-', '-', '>', '<', 'a', '/', '>'],
    m_ReaderPos := 1,
    m_DataSize := 12,
    m_DataPos := 1,
    m_CurChar := '<',
    m_CurToken := [],
    m_Stack := [],
    m_PriorWasEmptyTag := false,
    m_ErrorInfo := [],
    ubEmptyStack := false }

/-- Parser state c7cU4 of a concrete session (computed from the definitions above). -/
def c7cU4 : ParserState :=
  { input := ['<', '!', '-', '-', 'x', '-', '-', '>', '<', 'a', '/', '>'],
     m_ReaderPos := 9,
     m_DataSize := 12,
     m_DataPos := 9,
     m_CurChar := '<',
     m_CurToken := [],
     m_Stack := [],
     m_PriorWasEmptyTag := false,
     m_ErrorInfo := [],
     ubEmptyStack := false }

/-- Parser state c7mS0 of a concrete session (computed from the definitions above). -/
def c7mS0 : ParserState :=
  { input := ['<', '!', '[', 'C', 'D', 'A', 'T', 'A', '[', 'x', ']', ']', '>', '<', 'a', '/', '>'],
    m_ReaderPos := 1,
    m_DataSize := 17,
    m_DataPos := 1,
    m_CurChar := '<',
    m_CurToken := [],
    m_Stack := [],
    m_PriorWasEmptyTag := false,
    m_ErrorInfo := [],
    ubEmptyStack := false }

/-- Parser state c7mU3 of a concrete session (computed from the definitions above). -/
def c7mU3 : ParserState :=
  { input := ['<', '!', '[', 'C', 'D', 'A', 'T', 'A', '[', 'x', ']', ']', '>', '<', 'a', '/', '>'],
     m_ReaderPos := 14,
     m_DataSize := 17,
     m_DataPos := 14,
     m_CurChar := '<',
     m_CurToken := [],
     m_Stack := [],
     m_PriorWasEmptyTag := false,
     m_ErrorInfo := [],
     ubEmptyStack := false }

theorem c1cex_begin : BeginParsingFromMemory (("<a></a><b></b>").toList) = (true, c1cexS0) := rfl

theorem c1cex_step1 : NextNode 30 c1cexS0 =
    some (true, some (XmlNode.Begin (("a").toList) 0 []), c1cexS1) := rfl

theorem c1cex_step2 : NextNode 30 c1cexS1 =
    some (true, some (XmlNode.End (("a").toList)), c1cexS2) := rfl

theorem c1cex_step3 : NextNode 30 c1cexS2 =
    some (true, some (XmlNode.Begin (("b").toList) 7 []), c1cexS3) := rfl

theorem c1cex_step4 : NextNode 30 c1cexS3 =
    some (true, some (XmlNode.End (("b").toList)), c1cexS4) := rfl

theorem c1cex_step5 : NextNode 30 c1cexS4 = some (false, none, c1cexS5) := rfl

theorem c1w_begin : BeginParsingFromMemory (("<a><b></b></a>").toList) = (true, c1wS0) := rfl

theorem c1w_step1 : NextNode 30 c1wS0 =
    some (true, some (XmlNode.Begin (("a").toList) 0 []), c1wS1) := rfl

theorem c1w_step2 : NextNode 30 c1wS1 =
    some (true, some (XmlNode.Begin (("b").toList) 3 []), c1wS2) := rfl

theorem c1w_step3 : NextNode 30 c1wS2 =
    some (true, some (XmlNode.End (("b").toList)), c1wS3) := rfl

theorem c1w_step4 : NextNode 30 c1wS3 =
    some (true, some (XmlNode.End (("a").toList)), c1wS4) := rfl

theorem c1w_step5 : NextNode 30 c1wS4 = some (false, none, c1wS5) := rfl

theorem c2_begin : BeginParsingFromMemory (("<a>").toList) = (true, c2S0) := rfl

theorem c2_step1 : NextNode 30 c2S0 =
    some (true, some (XmlNode.Begin (("a").toList) 0 []), c2S1) := rfl

theorem c2_step2 : NextNode 30 c2S1 =
    some (true, some (XmlNode.Value (("a").toList) []), c2S2) := rfl

theorem c2_fixpoint : NextNode 30 c2S2 =
    some (true, some (XmlNode.Value (("a").toList) []), c2S2) := rfl

theorem c3cex_begin : BeginParsingFromMemory (("x<a/>").toList) = (true, c3cexS0) := rfl

theorem c3cex_step1 : NextNode 30 c3cexS0 = some (false, none, c3cexS1) := rfl

theorem c3cex_step2 : NextNode 30 c3cexS1 =
    some (true, some (XmlNode.Begin (("a").toList) 1 []), c3cexS2) := rfl

theorem c3w_begin : BeginParsingFromMemory ((" ").toList) = (true, c3wS0) := rfl

theorem c3w_step1 : NextNode 30 c3wS0 = some (false, none, c3wS1) := rfl

theorem c5_begin : BeginParsingFromMemory (("<a/>").toList) = (true, c5S0) := rfl

theorem c5_step1 : NextNode 30 c5S0 =
    some (true, some (XmlNode.Begin (("a").toList) 0 []), c5S1) := rfl

theorem c5_step2 : NextNode 30 c5S1 =
    some (true, some (XmlNode.End (("a").toList)), c5S2) := rfl

theorem c5_step3 : NextNode 30 c5S2 = some (false, none, c5S2) := rfl

theorem c6_begin : BeginParsingFromMemory (("<note><to>Mary</to></note>").toList) = (true, c6S0) := rfl

set_option maxHeartbeats 3200000 in
theorem c6_step1 : NextNode 30 c6S0 =
    some (true, some (XmlNode.Begin (("note").toList) 0 []), c6S1) := rfl

set_option maxHeartbeats 3200000 in
theorem c6_step2 : NextNode 30 c6S1 =
    some (true, some (XmlNode.Begin (("to").toList) 6 []), c6S2) := rfl

set_option maxHeartbeats 3200000 in
theorem c6_step3 : NextNode 30 c6S2 =
    some (true, some (XmlNode.Value (("to").toList) (("Mary").toList)), c6S3) := rfl

set_option maxHeartbeats 3200000 in
theorem c6_step4 : NextNode 30 c6S3 =
    some (true, some (XmlNode.End (("to").toList)), c6S4) := rfl

set_option maxHeartbeats 3200000 in
theorem c6_step5 : NextNode 30 c6S4 =
    some (true, some (XmlNode.End (("note").toList)), c6S5) := rfl

theorem c6_step6 : NextNode 30 c6S5 = some (false, none, c6S5) := rfl

/-- Trace of the accepted two-root document used against claim C1. -/
def c1cexTrace : List XmlNode :=
  [XmlNode.Begin (("a").toList) 0 [], XmlNode.End (("a").toList),
   XmlNode.Begin (("b").toList) 7 [], XmlNode.End (("b").toList)]

/-- C1 (counterexample): the two-root document with distinct tag names is
accepted without error, yet its Close names in emission order are [a, b],
which is not the reverse [b, a] of its Open names in emission order. -/
theorem c1_counterexample :
    acceptedEvents (("<a></a><b></b>").toList) 30 5 = some c1cexTrace ∧
    ¬ (closeNames c1cexTrace = (openNames c1cexTrace).reverse) := by
  constructor
  · have hrun : run 30 5 c1cexS0 = some (c1cexTrace, c1cexS5) :=
      run_cons c1cex_step1 (run_cons c1cex_step2 (run_cons c1cex_step3
        (run_cons c1cex_step4 (run_last c1cex_step5))))
    unfold acceptedEvents
    rw [c1cex_begin]
    simp only
    rw [hrun]
    rfl
  · decide

/-- C1 (amended): for every document the parser accepts without error, the
event trace is properly nested — every Close event names the most recently
opened element not yet closed, and nothing stays open.  The claim as
literally stated (the whole Close-name sequence is the reverse of the whole
Open-name sequence) fails on accepted documents with several sibling roots. -/
theorem c1_proper_nesting_amended : ∀ doc fuel steps tr,
    acceptedEvents doc fuel steps = some tr → nestingOk tr [] = true := by
  intro doc fuel steps tr h
  unfold acceptedEvents at h
  cases hr : run fuel steps (BeginParsingFromMemory doc).2 with
  | none => rw [hr] at h; exact absurd h (by simp)
  | some p =>
    rw [hr] at h
    obtain ⟨tr0, sF⟩ := p
    simp only at h
    split at h
    · rename_i herr
      have htr : tr0 = tr := Option.some_inj.mp h
      subst htr
      obtain ⟨hstk, hflag⟩ := beginParsingFromMemory_init doc
      have hinv : ParserInv (BeginParsingFromMemory doc).2 := by
        intro hx
        rw [hflag] at hx
        exact absurd hx (by decide)
      have hnest := run_nesting _ _ _ _ _ hr herr hinv
      rwa [show stackNames (BeginParsingFromMemory doc).2 = [] by
        simp [stackNames, hstk]] at hnest
    · exact absurd h (by simp)

/-- Trace of the nested witness document for the amended C1. -/
def c1wTrace : List XmlNode :=
  [XmlNode.Begin (("a").toList) 0 [], XmlNode.Begin (("b").toList) 3 [],
   XmlNode.End (("b").toList), XmlNode.End (("a").toList)]

/-- Witness for the amended C1 at a concrete nested document. -/
theorem c1_proper_nesting_amended_witness :
    nestingOk c1wTrace [] = true := by
  apply c1_proper_nesting_amended (("<a><b></b></a>").toList) 30 5 c1wTrace
  have hrun : run 30 5 c1wS0 = some (c1wTrace, c1wS5) :=
    run_cons c1w_step1 (run_cons c1w_step2 (run_cons c1w_step3
      (run_cons c1w_step4 (run_last c1w_step5))))
  unfold acceptedEvents
  rw [c1w_begin]
  simp only
  rw [hrun]
  rfl

/-- C2 (code bug): on the truncated document "<a>" the parser does not
eventually return false with a "premature end of file" error.  After the
Open(a) event it reaches a state from which every further NextNode call
returns true with a synthesized empty Text("a") event and the same state —
an infinite stream of successes — while the stack still holds "a" and no
error is ever recorded. -/
theorem c2_truncated_input_keeps_returning_true :
    BeginParsingFromMemory (("<a>").toList) = (true, c2S0) ∧
    NextNode 30 c2S0 = some (true, some (XmlNode.Begin (("a").toList) 0 []), c2S1) ∧
    NextNode 30 c2S1 = some (true, some (XmlNode.Value (("a").toList) []), c2S2) ∧
    NextNode 30 c2S2 = some (true, some (XmlNode.Value (("a").toList) []), c2S2) ∧
    stackNames c2S2 = [("a").toList] ∧
    c2S2.m_ErrorInfo = [] :=
  ⟨c2_begin, c2_step1, c2_step2, c2_fixpoint, rfl, rfl⟩

/-- C3 (counterexample): errors are not terminal.  On "x<a/>" the first
NextNode call returns false with the "Unexpected data outside of all tags"
error recorded, yet the very next call returns true and delivers the
Open(a) event. -/
theorem c3_counterexample :
    BeginParsingFromMemory (("x<a/>").toList) = (true, c3cexS0) ∧
    NextNode 30 c3cexS0 = some (false, none, c3cexS1) ∧
    c3cexS1.m_ErrorInfo ≠ [] ∧
    NextNode 30 c3cexS1 = some (true, some (XmlNode.Begin (("a").toList) 1 []), c3cexS2) :=
  ⟨c3cex_begin, c3cex_step1, by simp [c3cexS1], c3cex_step2⟩

/-- C3 (amended): termination is sticky only for clean completion.  Once a
NextNode call returns false with no error recorded, every further call —
with any fuel — returns false, delivers no node, and leaves the state
unchanged.  (The claim as stated, that false is terminal in general, fails
when false is returned because of a recoverable error.) -/
theorem c3_clean_false_is_terminal : ∀ fuel s r s',
    NextNode fuel s = some (false, r, s') → s'.m_ErrorInfo = [] →
    ∀ fuel', NextNode fuel' s' = some (false, none, s') := by
  intro fuel s r s' h herr fuel'
  obtain ⟨hnd, hstk0, hstk, hcc⟩ := (nextNode_master _ _ _ _ _ h).2.2.1 rfl herr
  have key : ∀ g fl, NextNodeF g fl s' = some (false, none, s') := by
    intro g fl
    unfold NextNodeF
    rw [if_neg (by simp [hstk])]
    rw [show wsAccum fl [] s' = some ([], s') from by
      rw [wsAccum.eq_def]
      simp only
      rw [if_neg (by rw [hcc]; decide)]]
    simp only
    rw [if_neg (by rw [hcc]; decide)]
    unfold ParseTagValueNode
    rw [valueLoop.eq_def]
    simp only
    rw [if_neg (by rw [hcc]; decide)]
    simp only
    rw [if_pos hstk]
    rw [if_neg (by decide)]
  cases fuel' with
  | zero => rw [NextNode]; exact key _ _
  | succ f => rw [NextNode]; exact key _ _

/-- Witness for the amended C3: on the whitespace-only document " " the
parser returns false cleanly, and a later call with different fuel again
returns false with no node and the same state. -/
theorem c3_clean_false_is_terminal_witness :
    NextNode 99 c3wS1 = some (false, none, c3wS1) :=
  c3_clean_false_is_terminal 30 c3wS0 none c3wS1 c3w_step1 rfl 99

/-- C4 (code bug): the memory reader's end-of-file test uses a strict
comparison (position > size instead of position >= size), so after the
single byte of a one-byte buffer has been consumed (position = size = 1)
ReadChar already fails while EndOfFile still reports false; only a seek
past the end makes EndOfFile true. -/
theorem c4_memory_eof_off_by_one :
    memReadChar (("a").toList) 1 = none ∧
    memEndOfFile (("a").toList) 1 = false ∧
    memEndOfFile (("a").toList) 2 = true ∧
    memSeek (("a").toList) 1 = (true, 1) :=
  ⟨rfl, rfl, rfl, rfl⟩

/-- C5: on "<a/>" the parser emits Open(a) and then, on the immediately
following call, the synthesized Close(a) with no Text event in between;
both events are reported at the same cursor position, and the call after
that terminates cleanly. -/
theorem c5_self_closing_synthesized_close :
    BeginParsingFromMemory (("<a/>").toList) = (true, c5S0) ∧
    NextNode 30 c5S0 = some (true, some (XmlNode.Begin (("a").toList) 0 []), c5S1) ∧
    NextNode 30 c5S1 = some (true, some (XmlNode.End (("a").toList)), c5S2) ∧
    CurPosition c5S1 = CurPosition c5S2 ∧
    NextNode 30 c5S2 = some (false, none, c5S2) ∧
    c5S2.m_ErrorInfo = [] :=
  ⟨c5_begin, c5_step1, c5_step2, rfl, c5_step3, rfl⟩

/-- Event trace of the nested example document for claim C6. -/
def c6Trace : List XmlNode :=
  [XmlNode.Begin (("note").toList) 0 [], XmlNode.Begin (("to").toList) 6 [],
   XmlNode.Value (("to").toList) (("Mary").toList),
   XmlNode.End (("to").toList), XmlNode.End (("note").toList)]

/-- C6: on "<note><to>Mary</to></note>" the parser accepts and produces
exactly the trace Open(note), Open(to), Text(to,"Mary"), Close(to),
Close(note), and the cursor positions observed after the five successful
calls are strictly increasing. -/
theorem c6_nested_document_trace :
    acceptedEvents (("<note><to>Mary</to></note>").toList) 30 6 = some c6Trace ∧
    CurPosition c6S1 < CurPosition c6S2 ∧ CurPosition c6S2 < CurPosition c6S3 ∧
    CurPosition c6S3 < CurPosition c6S4 ∧ CurPosition c6S4 < CurPosition c6S5 := by
  refine ⟨?_, by decide, by decide, by decide, by decide⟩
  have hrun : run 30 6 c6S0 = some (c6Trace, c6S5) :=
    run_cons c6_step1 (run_cons c6_step2 (run_cons c6_step3
      (run_cons c6_step4 (run_cons c6_step5 (run_last c6_step6)))))
  unfold acceptedEvents
  rw [c6_begin]
  simp only
  rw [hrun]
  rfl

/-- C7: comments and marked sections are invisible to the caller.  Whenever
the scan position sits on "<!" followed by "--" (a comment) or "[" (a
marked section) and the corresponding eat helper succeeds, NextNode
produces exactly what it would produce when started directly after the
skipped construct, and skipping touches neither the element stack, nor the
recorded error text, nor the self-closing flag. -/
theorem c7_comment_and_marked_section_invisible :
    (∀ f s u4, s.m_PriorWasEmptyTag = false → s.m_CurChar = '<' →
      ((NextChar s).2).m_CurChar = '!' →
      ((NextChar (NextChar s).2).2).m_CurChar = '-' →
      ((NextChar (NextChar (NextChar s).2).2).2).m_CurChar = '-' →
      EatComment (f + 1) ((NextChar (NextChar (NextChar (NextChar s).2).2).2).2) =
        some (true, u4) →
      NextNode (f + 1) s = NextNode f u4 ∧ u4.m_Stack = s.m_Stack ∧
        u4.m_ErrorInfo = s.m_ErrorInfo ∧ u4.m_PriorWasEmptyTag = false) ∧
    (∀ f s u3, s.m_PriorWasEmptyTag = false → s.m_CurChar = '<' →
      ((NextChar s).2).m_CurChar = '!' →
      ((NextChar (NextChar s).2).2).m_CurChar = '[' →
      EatMarkedSection (f + 1) ((NextChar (NextChar (NextChar s).2).2).2) =
        some (true, u3) →
      NextNode (f + 1) s = NextNode f u3 ∧ u3.m_Stack = s.m_Stack ∧
        u3.m_ErrorInfo = s.m_ErrorInfo ∧ u3.m_PriorWasEmptyTag = false) := by
  constructor
  · intro f s u4 hfl hlt hbang hd1 hd2 hec
    have hfr1 := nextChar_frame s
    have hfr2 := nextChar_frame (NextChar s).2
    have hfr3 := nextChar_frame (NextChar (NextChar s).2).2
    have hfr4 := nextChar_frame (NextChar (NextChar (NextChar s).2).2).2
    have hfr := frameEq_trans hfr1 (frameEq_trans hfr2 (frameEq_trans hfr3 hfr4))
    have hecs := eatComment_spec (f + 1) _ _ _ hec
    refine ⟨?_, ?_, ?_, ?_⟩
    · rw [NextNode]
      unfold NextNodeF
      simp only
      rw [if_neg (by simp [hfl])]
      rw [show wsAccum (f + 1) [] s = some ([], s) from by
        rw [wsAccum.eq_def]
        simp only
        rw [if_neg (by rw [hlt]; decide)]]
      simp only
      rw [if_pos hlt]
      rw [if_neg (by rw [hbang]; decide)]
      rw [if_pos hbang]
      rw [if_neg (by rw [hd1]; decide)]
      rw [if_pos (by simp [hd1, hd2])]
      rw [hec]
    · rw [hecs.1.2.1, hfr.2.1]
    · rw [hecs.2.1 rfl, hfr.2.2.2.1]
    · rw [hecs.1.2.2.1, hfr.2.2.1, hfl]
  · intro f s u3 hfl hlt hbang hbr hem
    have hfr1 := nextChar_frame s
    have hfr2 := nextChar_frame (NextChar s).2
    have hfr3 := nextChar_frame (NextChar (NextChar s).2).2
    have hfr := frameEq_trans hfr1 (frameEq_trans hfr2 hfr3)
    have hems := eatMarkedSection_spec (f + 1) _ _ _ hem
    refine ⟨?_, ?_, ?_, ?_⟩
    · rw [NextNode]
      unfold NextNodeF
      simp only
      rw [if_neg (by simp [hfl])]
      rw [show wsAccum (f + 1) [] s = some ([], s) from by
        rw [wsAccum.eq_def]
        simp only
        rw [if_neg (by rw [hlt]; decide)]]
      simp only
      rw [if_pos hlt]
      rw [if_neg (by rw [hbang]; decide)]
      rw [if_pos hbang]
      rw [if_pos hbr]
      rw [hem]
    · rw [hems.1.2.1, hfr.2.1]
    · rw [hems.2.1 rfl, hfr.2.2.2.1]
    · rw [hems.1.2.2.1, hfr.2.2.1, hfl]

/-- Witness for C7 at concrete inputs: skipping the comment of
"<!--x--><a/>" and the marked section of "<![CDATA[x]]><a/>" is invisible
to the caller. -/
theorem c7_comment_and_marked_section_invisible_witness :
    (NextNode 30 c7cS0 = NextNode 29 c7cU4 ∧ c7cU4.m_Stack = c7cS0.m_Stack ∧
      c7cU4.m_ErrorInfo = c7cS0.m_ErrorInfo ∧ c7cU4.m_PriorWasEmptyTag = false) ∧
    (NextNode 30 c7mS0 = NextNode 29 c7mU3 ∧ c7mU3.m_Stack = c7mS0.m_Stack ∧
      c7mU3.m_ErrorInfo = c7mS0.m_ErrorInfo ∧ c7mU3.m_PriorWasEmptyTag = false) :=
  ⟨c7_comment_and_marked_section_invisible.1 29 c7cS0 c7cU4 rfl rfl rfl rfl rfl rfl,
   c7_comment_and_marked_section_invisible.2 29 c7mS0 c7mU3 rfl rfl rfl rfl rfl⟩

/-- A parser state whose one-byte input has been fully consumed: the read
position equals the buffer length and the current character is NUL. -/
def c8cexS : ParserState :=
  { input := ['a'], m_ReaderPos := 1, m_DataSize := 1, m_DataPos := 1,
    m_CurChar := '\x00', m_CurToken := [], m_Stack := [],
    m_PriorWasEmptyTag := false, m_ErrorInfo := [], ubEmptyStack := false }

/-- C8 (counterexample): with the one-byte input fully consumed (read
position = buffer length, so the medium is truly exhausted), NextToken
produces an empty token yet still returns success, because EndOfDocument
tests position > length rather than >= . -/
theorem c8_counterexample :
    NextToken xmlDelimsWithEquals 10 c8cexS = some (true, c8cexS) ∧
    c8cexS.m_CurToken = [] ∧
    c8cexS.input.length ≤ c8cexS.m_ReaderPos :=
  ⟨rfl, rfl, by decide⟩

/-- C8 (amended): NextToken returns failure if and only if the token it
produced is empty and the parser's own EndOfDocument predicate holds on the
resulting state.  (EndOfDocument is position > length, so — unlike the
claim — true exhaustion, position = length, still counts as success.) -/
theorem c8_next_token_failure_amended : ∀ delims fuel s b s',
    NextToken delims fuel s = some (b, s') →
    (b = false ↔ (s'.m_CurToken = [] ∧ EndOfDocument s' = true)) := by
  intro delims fuel s b s' h
  unfold NextToken at h
  cases hsw : skipWs fuel { s with m_CurToken := [] } with
  | none => rw [hsw] at h; exact absurd h (by simp)
  | some s1 =>
    rw [hsw] at h
    simp only at h
    split at h
    · exact absurd h (by simp)
    · rename_i s2 heq
      split at h
      · exact absurd h (by simp)
      · rename_i s3 heq3
        split at h
        · rename_i hcond
          injection h with hp
          injection hp with hb hs
          subst hb
          subst hs
          have hc := hcond
          rw [Bool.and_eq_true] at hc
          simp only [decide_eq_true_eq] at hc
          exact ⟨fun _ => ⟨hc.1, hc.2⟩, fun _ => rfl⟩
        · rename_i hcond
          injection h with hp
          injection hp with hb hs
          subst hb
          subst hs
          constructor
          · intro hfalse
            exact absurd hfalse (by decide)
          · intro hx
            exfalso
            exact hcond (by rw [Bool.and_eq_true]; simp [hx.1, hx.2])

/-- A state past the end of its empty input, on which NextToken fails. -/
def c8wS : ParserState :=
  { input := [], m_ReaderPos := 1, m_DataSize := 0, m_DataPos := 1,
    m_CurChar := '\x00', m_CurToken := [], m_Stack := [],
    m_PriorWasEmptyTag := false, m_ErrorInfo := [], ubEmptyStack := false }

/-- Witness for the amended C8 at a concrete failing call. -/
theorem c8_next_token_failure_amended_witness :
    false = false ↔ (c8wS.m_CurToken = [] ∧ EndOfDocument c8wS = true) :=
  c8_next_token_failure_amended xmlDelimsWithEquals 5 c8wS false c8wS rfl

/-- C9: starting a session on the empty document fails with the exact
diagnostic "Empty document.  No XML tags found." before any NextNode call,
while any input with at least one character starts successfully with empty
error text. -/
theorem c9_empty_document_rejected :
    (BeginParsingFromMemory []).1 = false ∧
    (BeginParsingFromMemory []).2.m_ErrorInfo =
      ("Empty document.  No XML tags found.").toList ∧
    ∀ doc : List Char, doc ≠ [] →
      (BeginParsingFromMemory doc).1 = true ∧
      (BeginParsingFromMemory doc).2.m_ErrorInfo = [] := by
  refine ⟨rfl, rfl, ?_⟩
  intro doc hne
  cases doc with
  | nil => exact absurd rfl hne
  | cons c rest =>
    constructor <;>
      simp [BeginParsingFromMemory, freshState, NextChar, memReadChar]

/-- Witness for C9: the one-byte document "x" starts successfully. -/
theorem c9_empty_document_rejected_witness :
    (BeginParsingFromMemory (("x").toList)).1 = true ∧
    (BeginParsingFromMemory (("x").toList)).2.m_ErrorInfo = [] :=
  c9_empty_document_rejected.2.2 (("x").toList) (by decide)

/-- C10: no parser step ever indexes or erases from an empty stack.  The
embedding raises the ubEmptyStack flag exactly where the C++ code would
touch the top of an empty stack (end-tag pop, text-value attachment,
synthetic close); session start leaves the flag false and every NextNode
call — from any state whatsoever — preserves it, so the flag is false in
every reachable state. -/
theorem c10_no_empty_stack_access :
    (∀ doc, ((BeginParsingFromMemory doc).2).ubEmptyStack = false) ∧
    (∀ fuel s b nd s', NextNode fuel s = some (b, nd, s') →
      s'.ubEmptyStack = s.ubEmptyStack) := by
  constructor
  · intro doc
    have fr := nextChar_frame { freshState doc with m_DataSize := doc.length }
    unfold BeginParsingFromMemory
    simp only
    split
    · exact fr.2.2.2.2.trans (by rfl)
    · exact fr.2.2.2.2.trans (by rfl)
  · intro fuel s b nd s' h
    exact (nextNode_master fuel s b nd s' h).1.2

/-- Witness for C10 at a concrete call: the first NextNode call on "<a/>"
leaves the empty-stack-access flag unset. -/
theorem c10_no_empty_stack_access_witness :
    c5S1.ubEmptyStack = c5S0.ubEmptyStack :=
  c10_no_empty_stack_access.2 30 c5S0 true
    (some (XmlNode.Begin (("a").toList) 0 [])) c5S1 c5_step1
